import Mathlib

/-!
Graphene LibOS: the heap-break region manager (`LibOS/shim/src/sys/shim_brk.c`)

A shallow embedding of `init_brk_region`, `reset_brk`, `shim_do_brk` and the checkpoint
pair `BEGIN_CP_FUNC(brk)` / `BEGIN_RS_FUNC(brk)`.

* Pointers, `size_t` and `uint64_t` are natural numbers below `WORD = 2 ^ 64`; every
  addition and subtraction of the source is taken modulo `WORD`.
* The global `brk_region`, the current value of `RLIMIT_DATA` and the existence of
  `brk_lock` are the fields of `World`.
* The VMA Bookkeeper, the Platform Allocator, the configuration and the random source are
  external: each function takes a record giving the result of every call it could make,
  and every Bookkeeper / Allocator call made is appended, with its arguments and result,
  to `World.calls`.
* `BUG()` and a failing `assert` do not return: the functions that can reach them return
  in `Except Fault`.
-/

namespace Graphene

/-! ## Machine words -/

/-- Number of values of a 64-bit machine word (`size_t`, `uintptr_t`, `char*`). -/
def WORD : Nat := 2 ^ 64

/-- Addition of machine words, wrapping. -/
def wadd (a b : Nat) : Nat := (a + b) % WORD

/-- Subtraction of machine words, wrapping (also a pointer difference stored in a `size_t`). -/
def wsub (a b : Nat) : Nat := (a + (WORD - b % WORD)) % WORD

/-! ## Platform constants and the alignment macros -/

/-- Constants of the platform that the source reads but does not define. -/
structure Pal where
  /-- The allocation granularity `g_pal_alloc_align`. -/
  alloc_align : Nat
  /-- The user-address ceiling `PAL_CB(user_address.end)`. -/
  user_address_end : Nat
  /-- The built-in maximum heap size `DEFAULT_BRK_MAX_SIZE`. -/
  DEFAULT_BRK_MAX_SIZE : Nat
  /-- The compile-time switch `ENABLE_ASLR == 1`. -/
  ENABLE_ASLR : Bool

/-- The platform constants are machine words and the granularity is a power of two
(a positive divisor of `2 ^ 64`). -/
def Pal.wf (P : Pal) : Prop :=
  0 < P.alloc_align ∧ P.alloc_align ∣ WORD ∧ P.user_address_end < WORD ∧
    P.DEFAULT_BRK_MAX_SIZE < WORD

/-- Modelled from the spec: the macro `ALLOC_ALIGN_DOWN` (its header is absent) rounds a
word down to the allocation granularity. -/
def ALLOC_ALIGN_DOWN (P : Pal) (x : Nat) : Nat := x - x % P.alloc_align

/-- Modelled from the spec: the macros `ALLOC_ALIGN_UP` / `ALLOC_ALIGN_UP_PTR` (their header
is absent) round a word up to the allocation granularity, as the round-down of
`x + (alignment - 1)` computed in machine arithmetic. -/
def ALLOC_ALIGN_UP (P : Pal) (x : Nat) : Nat := ALLOC_ALIGN_DOWN P (wadd x (P.alloc_align - 1))

/-- Modelled from the spec: the macros `IS_ALLOC_ALIGNED` / `IS_ALLOC_ALIGNED_PTR` (their
header is absent) test whether a word is a multiple of the allocation granularity. -/
def IS_ALLOC_ALIGNED (P : Pal) (x : Nat) : Bool := x % P.alloc_align == 0

/-! ## Flag constants (Linux values; `VMA_UNMAPPED` as in `shim_vma.h`) -/

def PROT_NONE : Nat := 0
def PROT_READ : Nat := 1
def PROT_WRITE : Nat := 2
def MAP_PRIVATE : Nat := 0x02
def MAP_FIXED : Nat := 0x10
def MAP_ANONYMOUS : Nat := 0x20
def MAP_FIXED_NOREPLACE : Nat := 0x100000
def VMA_UNMAPPED : Nat := 0x10000000
def PAL_PROT_READ : Nat := 1
def PAL_PROT_WRITE : Nat := 2
def EINVAL : Int := 22
def EEXIST : Int := 17
def ENOMEM : Int := 12

/-! ## State -/

/-- The global `brk_region`. -/
structure BrkRegion where
  data_segment_size : Nat
  brk_start : Nat
  brk_current : Nat
  brk_end : Nat
  deriving DecidableEq, Repr

/-- One call to the VMA Bookkeeper or the Platform Allocator, with the arguments passed and
the result received. -/
inductive Call where
  | bkeep_mmap_fixed (addr length prot flags : Nat) (ret : Int)
  | bkeep_mmap_any (aslr : Bool) (length prot flags : Nat) (ret : Int) (addr : Nat)
  | bkeep_munmap (addr length : Nat) (is_internal : Bool) (ret : Int) (tmp_vma : Nat)
  | bkeep_remove_tmp_vma (tmp_vma : Nat)
  | DkVirtualMemoryAlloc (addr size alloc_type prot : Nat) (ret : Nat)
  | DkVirtualMemoryFree (addr size : Nat)
  deriving DecidableEq, Repr

/-- Everything the functions of `shim_brk.c` read or write. -/
structure World where
  /-- The global `brk_region`. -/
  brk_region : BrkRegion
  /-- The current value of `RLIMIT_DATA` (`get_rlimit_cur` / `set_rlimit_cur`). -/
  rlimit_data : Nat
  /-- Whether `brk_lock` exists (`create_lock` / `destroy_lock`). -/
  brk_lock : Bool
  /-- The collaborator calls made so far, oldest first. -/
  calls : List Call
  deriving DecidableEq, Repr

/-- Record a collaborator call. -/
def World.log (w : World) (c : Call) : World := { w with calls := w.calls ++ [c] }

/-- Ways of not returning. -/
inductive Fault where
  /-- The macro `BUG()`. -/
  | bug
  /-- A failing `assert`. -/
  | assert_failed
  deriving DecidableEq, Repr

deriving instance DecidableEq for Except

/-! ## `shim_do_brk` -/

/-- Results of the collaborator calls `shim_do_brk` can make, by their arguments. -/
structure BrkEnv where
  /-- Return value of `bkeep_mmap_fixed(addr, length, prot, flags, NULL, 0, "heap")`. -/
  bkeep_mmap_fixed : Nat → Nat → Nat → Nat → Int
  /-- Return value of `DkVirtualMemoryAlloc(addr, size, alloc_type, prot)`: null on failure. -/
  DkVirtualMemoryAlloc : Nat → Nat → Nat → Nat → Nat

/-- The label `out:` of `shim_do_brk`: return the stored current break. -/
def shim_do_brk_out (w : World) : Except Fault (Nat × World) :=
  .ok (w.brk_region.brk_current, w)

/-- The function `shim_do_brk` (lines 143-204). -/
def shim_do_brk (P : Pal) (env : BrkEnv) (w : World) (brk : Nat) : Except Fault (Nat × World) :=
  let brk_aligned := ALLOC_ALIGN_UP P brk
  let brk_current := ALLOC_ALIGN_UP P w.brk_region.brk_current
  if brk < w.brk_region.brk_start then
    shim_do_brk_out w
  else if brk ≤ brk_current then
    let size := wsub brk_current brk_aligned
    if size ≠ 0 then
      let length := wsub w.brk_region.brk_end brk_aligned
      let ret := env.bkeep_mmap_fixed brk_aligned length PROT_NONE (MAP_FIXED ||| VMA_UNMAPPED)
      let w1 := w.log (.bkeep_mmap_fixed brk_aligned length PROT_NONE (MAP_FIXED ||| VMA_UNMAPPED) ret)
      if ret ≠ 0 then
        shim_do_brk_out w1
      else
        let w2 := w1.log (.DkVirtualMemoryFree brk_aligned size)
        shim_do_brk_out { w2 with brk_region := { w2.brk_region with brk_current := brk } }
    else
      shim_do_brk_out { w with brk_region := { w.brk_region with brk_current := brk } }
  else if brk > w.brk_region.brk_end then
    shim_do_brk_out w
  else
    let rlim_data := w.rlimit_data
    let size := wsub brk_aligned w.brk_region.brk_start
    if rlim_data < w.brk_region.data_segment_size
        ∨ wsub rlim_data w.brk_region.data_segment_size < size then
      shim_do_brk_out w
    else
      let size := wsub brk_aligned brk_current
      if size = 0 then
        .error .assert_failed
      else
        let prot := PROT_READ ||| PROT_WRITE
        let flags := MAP_PRIVATE ||| MAP_ANONYMOUS ||| MAP_FIXED
        let ret := env.bkeep_mmap_fixed brk_current size prot flags
        let w1 := w.log (.bkeep_mmap_fixed brk_current size prot flags ret)
        if ret < 0 then
          shim_do_brk_out w1
        else
          let pal_prot := PAL_PROT_READ ||| PAL_PROT_WRITE
          let mem := env.DkVirtualMemoryAlloc brk_current size 0 pal_prot
          let w2 := w1.log (.DkVirtualMemoryAlloc brk_current size 0 pal_prot mem)
          if mem = 0 then
            let length := wsub w.brk_region.brk_end brk_current
            let ret2 := env.bkeep_mmap_fixed brk_current length PROT_NONE (MAP_FIXED ||| VMA_UNMAPPED)
            let w3 := w2.log (.bkeep_mmap_fixed brk_current length PROT_NONE (MAP_FIXED ||| VMA_UNMAPPED) ret2)
            if ret2 < 0 then
              .error .bug
            else
              shim_do_brk_out w3
          else
            shim_do_brk_out { w2 with brk_region := { w2.brk_region with brk_current := brk } }

/-! ## `init_brk_region` -/

/-- Results of the collaborator calls `init_brk_region` can make. -/
structure InitEnv where
  /-- Whether `root_config` is non-null. -/
  root_config : Bool
  /-- Return value of `get_config(root_config, "sys.brk.max_size", ...)`. -/
  get_config : Int
  /-- Value of `parse_int(brk_cfg)`. -/
  parse_int : Int
  /-- Return value of `DkRandomBitsRead` and the bits it writes to `offset`. -/
  DkRandomBitsRead : Int × Nat
  /-- The function `convert_pal_errno`. -/
  convert_pal_errno : Int → Int
  /-- Return value of `bkeep_mmap_fixed(addr, length, prot, flags, NULL, 0, "heap")`. -/
  bkeep_mmap_fixed : Nat → Nat → Nat → Nat → Int
  /-- Return value of `bkeep_mmap_any` (`bkeep_mmap_any_aslr` when the flag is set) called
  with `(length, prot, flags, NULL, 0, "heap", &brk_start)` and the address it writes. -/
  bkeep_mmap_any : Bool → Nat → Nat → Nat → Int × Nat
  /-- Return value of `create_lock(&brk_lock)`. -/
  create_lock : Bool

/-- The maximum heap size resolved from the configuration (lines 43-50). -/
def init_brk_max_size (P : Pal) (env : InitEnv) : Nat :=
  if env.root_config = true ∧ 0 < env.get_config then (env.parse_int % (WORD : Int)).toNat
  else P.DEFAULT_BRK_MAX_SIZE

/-- The random offset of lines 64-75: zero unless `ENABLE_ASLR == 1`. -/
def init_brk_offset (P : Pal) (bits brk_start brk_max_size : Nat) : Nat :=
  if P.ENABLE_ASLR = true then
    ALLOC_ALIGN_DOWN P
      ((bits % WORD) %
        min 0x2000000 (wsub (wsub P.user_address_end brk_max_size) brk_start))
  else 0

/-- Lines 61-91 of `init_brk_region`: try the preferred start. An early `return` is the
`error` case; otherwise the value of `brk_start` after the block. -/
def init_brk_region_preferred (P : Pal) (env : InitEnv) (w : World)
    (brk_start brk_max_size : Nat) : Except (Int × World) (Nat × World) :=
  if brk_start ≠ 0 ∧ brk_start ≤ P.user_address_end ∧ brk_max_size ≤ P.user_address_end
      ∧ brk_start < wsub P.user_address_end brk_max_size then
    if P.ENABLE_ASLR = true ∧ env.DkRandomBitsRead.1 < 0 then
      .error (-(env.convert_pal_errno (-env.DkRandomBitsRead.1)), w)
    else
      let offset := init_brk_offset P env.DkRandomBitsRead.2 brk_start brk_max_size
      let brk_start := wadd brk_start offset
      let flags := MAP_FIXED_NOREPLACE ||| VMA_UNMAPPED
      let ret := env.bkeep_mmap_fixed brk_start brk_max_size PROT_NONE flags
      let w1 := w.log (.bkeep_mmap_fixed brk_start brk_max_size PROT_NONE flags ret)
      if ret = -EEXIST then
        .ok (0, w1)
      else if ret < 0 then
        .error (ret, w1)
      else
        .ok (brk_start, w1)
  else
    .ok (0, w)

/-- Lines 93-104 of `init_brk_region`: reserve anywhere when `brk_start` is null. -/
def init_brk_region_any (P : Pal) (env : InitEnv) (w : World)
    (brk_start brk_max_size : Nat) : Except (Int × World) (Nat × World) :=
  if brk_start = 0 then
    let r := env.bkeep_mmap_any P.ENABLE_ASLR brk_max_size PROT_NONE VMA_UNMAPPED
    let w1 := w.log (.bkeep_mmap_any P.ENABLE_ASLR brk_max_size PROT_NONE VMA_UNMAPPED r.1 r.2)
    if r.1 < 0 then .error (r.1, w1) else .ok (r.2, w1)
  else
    .ok (brk_start, w)

/-- The function `init_brk_region` (lines 42-119): the returned `int` and the state. -/
def init_brk_region (P : Pal) (env : InitEnv) (w : World)
    (brk_start data_segment_size : Nat) : Int × World :=
  let brk_max_size := init_brk_max_size P env
  let data_segment_size := ALLOC_ALIGN_UP P data_segment_size
  if brk_start ≠ 0 ∧ IS_ALLOC_ALIGNED P brk_start = false then
    (-EINVAL, w)
  else if IS_ALLOC_ALIGNED P brk_max_size = false then
    (-EINVAL, w)
  else
    match init_brk_region_preferred P env w brk_start brk_max_size with
    | .error r => r
    | .ok (brk_start, w1) =>
      match init_brk_region_any P env w1 brk_start brk_max_size with
      | .error r => r
      | .ok (brk_start, w2) =>
        let w3 : World :=
          { w2 with
            brk_region :=
              { brk_start := brk_start
                brk_current := brk_start
                brk_end := wadd brk_start brk_max_size
                data_segment_size := data_segment_size }
            rlimit_data := wadd brk_max_size data_segment_size }
        if env.create_lock = false then
          (-ENOMEM, w3)
        else
          (0, { w3 with brk_lock := true })

/-! ## `reset_brk` -/

/-- Results of the collaborator calls `reset_brk` can make. -/
structure ResetEnv where
  /-- Return value of `bkeep_munmap(addr, length, is_internal, &tmp_vma)` and the token it
  writes to `tmp_vma`. -/
  bkeep_munmap : Nat → Nat → Bool → Int × Nat

/-- The function `reset_brk` (lines 121-141). -/
def reset_brk (P : Pal) (env : ResetEnv) (w : World) : Except Fault World :=
  let allocated_size :=
    wsub (ALLOC_ALIGN_UP P w.brk_region.brk_current) w.brk_region.brk_start
  let length := wsub w.brk_region.brk_end w.brk_region.brk_start
  let r := env.bkeep_munmap w.brk_region.brk_start length false
  let w1 := w.log (.bkeep_munmap w.brk_region.brk_start length false r.1 r.2)
  if r.1 < 0 then
    .error .bug
  else
    let w2 := w1.log (.DkVirtualMemoryFree w.brk_region.brk_start allocated_size)
    let w3 := w2.log (.bkeep_remove_tmp_vma r.2)
    .ok { w3 with
          brk_region :=
            { brk_start := 0, brk_current := 0, brk_end := 0, data_segment_size := 0 }
          brk_lock := false }

/-! ## Checkpoint and restore -/

/-- An entry of the checkpoint store. -/
inductive CpEntry where
  /-- Written by `ADD_CP_FUNC_ENTRY`, read by `GET_CP_FUNC_ENTRY`. -/
  | func (value : Nat)
  /-- Written by `ADD_CP_ENTRY(SIZE, _)`, read by `GET_CP_ENTRY(SIZE)`. -/
  | size (value : Nat)
  deriving DecidableEq, Repr

/-- The serializer `BEGIN_CP_FUNC(brk)` (lines 206-215): the entries it emits, in order. -/
def cp_brk (r : BrkRegion) : List CpEntry :=
  [ .func r.brk_start,
    .size (wsub r.brk_current r.brk_start),
    .size (wsub r.brk_end r.brk_start),
    .size r.data_segment_size ]

/-- The restorer `BEGIN_RS_FUNC(brk)` (lines 217-224), reading the entries at its position
in the store; `none` when they are not one function entry followed by three sizes. -/
def rs_brk (rebase : Nat) (entries : List CpEntry) : Option BrkRegion :=
  match rebase, entries with
  | _, .func start :: .size used :: .size total :: .size data :: _ =>
    some
      { brk_start := start
        brk_current := wadd start used
        brk_end := wadd start total
        data_segment_size := data }
  | _, _ => none

/-! ## The states the specification speaks of -/

/-- An initialized region: `start ≤ current ≤ end` as machine words, with `start` and `end`
allocation-aligned. -/
def BrkRegion.initialized (P : Pal) (r : BrkRegion) : Prop :=
  r.brk_start ≤ r.brk_current ∧ r.brk_current ≤ r.brk_end ∧ r.brk_end < WORD ∧
    IS_ALLOC_ALIGNED P r.brk_start = true ∧ IS_ALLOC_ALIGNED P r.brk_end = true

instance (P : Pal) (r : BrkRegion) : Decidable (r.initialized P) := by
  unfold BrkRegion.initialized; infer_instance

instance (P : Pal) : Decidable P.wf := by
  unfold Pal.wf; infer_instance

/-- Modelled from the spec: what the Bookkeeper ledger records for a byte address: absent,
reserved but unmapped, or committed. -/
inductive Mark where
  | absent
  | reserved
  | committed
  deriving DecidableEq, Repr

/-- Modelled from the spec: the effect of one call on the Bookkeeper ledger. A Bookkeeper
call that returns 0 marks, or releases, exactly the range it was given; a range marked with
`VMA_UNMAPPED` is reserved, any other is committed. -/
def ledger_step (l : Nat → Mark) (c : Call) : Nat → Mark :=
  match c with
  | .bkeep_mmap_fixed addr length _ flags ret =>
    if ret = 0 then
      fun a => if addr ≤ a ∧ a < addr + length then
        (if flags &&& VMA_UNMAPPED = 0 then Mark.committed else Mark.reserved) else l a
    else l
  | .bkeep_mmap_any _ length _ flags ret addr =>
    if ret = 0 then
      fun a => if addr ≤ a ∧ a < addr + length then
        (if flags &&& VMA_UNMAPPED = 0 then Mark.committed else Mark.reserved) else l a
    else l
  | .bkeep_munmap addr length _ ret _ =>
    if ret = 0 then fun a => if addr ≤ a ∧ a < addr + length then Mark.absent else l a
    else l
  | _ => l

/-- Modelled from the spec: the Bookkeeper ledger after a sequence of calls. -/
def ledger (calls : List Call) (l : Nat → Mark) : Nat → Mark := calls.foldl ledger_step l

/-- Modelled from the spec: the effect of one call on the set of addresses that the
Platform Allocator backs with memory: a commit that returns non-null backs its range, a
decommit removes the backing of its range. -/
def backed_step (b : Nat → Bool) (c : Call) : Nat → Bool :=
  match c with
  | .DkVirtualMemoryAlloc addr size _ _ ret =>
    if ret = 0 then b else fun a => if addr ≤ a ∧ a < addr + size then true else b a
  | .DkVirtualMemoryFree addr size =>
    fun a => if addr ≤ a ∧ a < addr + size then false else b a
  | _ => b

/-- Modelled from the spec: the backed addresses after a sequence of calls. -/
def backed (calls : List Call) (b : Nat → Bool) : Nat → Bool := calls.foldl backed_step b

/-- A Bookkeeper and an Allocator whose calls all succeed. -/
def BrkEnv.succeeds (env : BrkEnv) : Prop :=
  (∀ a l p f, env.bkeep_mmap_fixed a l p f = 0) ∧ (∀ a s t p, env.DkVirtualMemoryAlloc a s t p ≠ 0)

/-- An environment for `shim_do_brk` whose calls all succeed (the allocator returns the
address it was given, or 1 for the null address). -/
def okEnv : BrkEnv where
  bkeep_mmap_fixed := fun _ _ _ _ => 0
  DkVirtualMemoryAlloc := fun a _ _ _ => if a = 0 then 1 else a

/-- An environment for `shim_do_brk` in which the Bookkeeper refuses every call. -/
def failEnv : BrkEnv where
  bkeep_mmap_fixed := fun _ _ _ _ => -ENOMEM
  DkVirtualMemoryAlloc := fun _ _ _ _ => 0

/-- The platform of the concrete scenario: granularity `0x1000`. -/
def pal4k : Pal where
  alloc_align := 0x1000
  user_address_end := 0x7fffffffffff
  DEFAULT_BRK_MAX_SIZE := 0x40000
  ENABLE_ASLR := true

/-! ## Concrete states and sequences of calls -/

/-- The state of the concrete scenario after `shim_do_brk(0x3500)`: window
`[0x1000, 0x5000)`, current break `0x3500`. -/
def scenario : World where
  brk_region :=
    { data_segment_size := 0x2000, brk_start := 0x1000, brk_current := 0x3500, brk_end := 0x5000 }
  rlimit_data := 0x6000
  brk_lock := true
  calls := []

/-- The state of the concrete scenario right after initialization. -/
def scenario_fresh : World :=
  { scenario with brk_region := { scenario.brk_region with brk_current := 0x1000 } }

/-- Run `shim_do_brk` on a sequence of requests, each with the outcomes of its own
collaborator calls; the values returned, in order, and the final state. -/
def shim_do_brk_seq (P : Pal) : List (BrkEnv × Nat) → World → Except Fault (List Nat × World)
  | [], w => .ok ([], w)
  | (env, brk) :: rest, w =>
    match shim_do_brk P env w brk with
    | .error f => .error f
    | .ok (v, w1) =>
      match shim_do_brk_seq P rest w1 with
      | .error f => .error f
      | .ok (vs, w2) => .ok (v :: vs, w2)

/-- The scenario right after initialization, with `RLIMIT_DATA` lowered to
`data_segment_size + 0x3000`. -/
def scenario_limited : World := { scenario_fresh with rlimit_data := 0x5000 }

/-- Outcomes for `init_brk_region` in which the configuration gives the maximum heap size
and every collaborator succeeds. -/
def initEnv (max_size : Int) : InitEnv where
  root_config := true
  get_config := 6
  parse_int := max_size
  DkRandomBitsRead := (0, 0x123456789)
  convert_pal_errno := fun e => e
  bkeep_mmap_fixed := fun _ _ _ _ => 0
  bkeep_mmap_any := fun _ _ _ _ => (0, 0x10000)
  create_lock := true

/-- The state before `init_brk_region`: the region cleared, no lock, no call made. -/
def blank : World where
  brk_region := { data_segment_size := 0, brk_start := 0, brk_current := 0, brk_end := 0 }
  rlimit_data := 0x800000
  brk_lock := false
  calls := []

/-- The state after `init_brk_region(0x1000, 0x1800)` on the blank state, with a configured
maximum heap size of `0x4000` and every collaborator succeeding. -/
def blank_init : World := (init_brk_region pal4k (initEnv 0x4000) blank 0x1000 0x1800).2

/-- The three calls of a grow whose commit fails: the mark, the failed commit and the
re-mark of the tail. -/
def rollback_calls (P : Pal) (env : BrkEnv) (w : World) (brk : Nat) : List Call :=
  [.bkeep_mmap_fixed (ALLOC_ALIGN_UP P w.brk_region.brk_current)
      (wsub (ALLOC_ALIGN_UP P brk) (ALLOC_ALIGN_UP P w.brk_region.brk_current))
      (PROT_READ ||| PROT_WRITE) (MAP_PRIVATE ||| MAP_ANONYMOUS ||| MAP_FIXED)
      (env.bkeep_mmap_fixed (ALLOC_ALIGN_UP P w.brk_region.brk_current)
        (wsub (ALLOC_ALIGN_UP P brk) (ALLOC_ALIGN_UP P w.brk_region.brk_current))
        (PROT_READ ||| PROT_WRITE) (MAP_PRIVATE ||| MAP_ANONYMOUS ||| MAP_FIXED)),
   .DkVirtualMemoryAlloc (ALLOC_ALIGN_UP P w.brk_region.brk_current)
      (wsub (ALLOC_ALIGN_UP P brk) (ALLOC_ALIGN_UP P w.brk_region.brk_current))
      0 (PAL_PROT_READ ||| PAL_PROT_WRITE) 0,
   .bkeep_mmap_fixed (ALLOC_ALIGN_UP P w.brk_region.brk_current)
      (wsub w.brk_region.brk_end (ALLOC_ALIGN_UP P w.brk_region.brk_current))
      PROT_NONE (MAP_FIXED ||| VMA_UNMAPPED)
      (env.bkeep_mmap_fixed (ALLOC_ALIGN_UP P w.brk_region.brk_current)
        (wsub w.brk_region.brk_end (ALLOC_ALIGN_UP P w.brk_region.brk_current))
        PROT_NONE (MAP_FIXED ||| VMA_UNMAPPED))]

/-- An environment for `shim_do_brk` in which the Bookkeeper succeeds and the Allocator
fails. -/
def allocFailEnv : BrkEnv where
  bkeep_mmap_fixed := fun _ _ _ _ => 0
  DkVirtualMemoryAlloc := fun _ _ _ _ => 0

/-- An environment for `shim_do_brk` in which the Allocator fails and the Bookkeeper accepts
read/write marks but refuses `PROT_NONE` re-marks. -/
def rollbackFailEnv : BrkEnv where
  bkeep_mmap_fixed := fun _ _ prot _ => if prot = PROT_NONE then -ENOMEM else 0
  DkVirtualMemoryAlloc := fun _ _ _ _ => 0

/-- The Bookkeeper contract for reserve-anywhere that the code relies on: the address it
chooses is allocation-aligned and the window it reserves does not wrap. -/
def InitEnv.any_contract (P : Pal) (env : InitEnv) : Prop :=
  (env.bkeep_mmap_any P.ENABLE_ASLR (init_brk_max_size P env) PROT_NONE VMA_UNMAPPED).2
      % P.alloc_align = 0 ∧
  (env.bkeep_mmap_any P.ENABLE_ASLR (init_brk_max_size P env) PROT_NONE VMA_UNMAPPED).2
      + init_brk_max_size P env < WORD

/-- Modelled from the spec: the commit-consistency invariant. Every address of
`[start, align_up(current))` is marked committed in the Bookkeeper ledger and backed by the
Platform Allocator; every address of `[align_up(current), end)` is marked reserved and not
backed. The ledger and the backed set are those reached from `l0` and `b0` by the calls
made so far. -/
def commit_consistent (P : Pal) (w : World) (l0 : Nat → Mark) (b0 : Nat → Bool) : Prop :=
  ∀ a,
    (w.brk_region.brk_start ≤ a → a < ALLOC_ALIGN_UP P w.brk_region.brk_current →
      ledger w.calls l0 a = Mark.committed ∧ backed w.calls b0 a = true) ∧
    (ALLOC_ALIGN_UP P w.brk_region.brk_current ≤ a → a < w.brk_region.brk_end →
      ledger w.calls l0 a = Mark.reserved ∧ backed w.calls b0 a = false)

/-- Modelled from the spec: the commit-consistency invariant for a window `[s, e)` whose
committed prefix ends at `m`, on the ledger and the backed set reached by `calls`. -/
def consistent_at (calls : List Call) (l0 : Nat → Mark) (b0 : Nat → Bool) (s m e : Nat) : Prop :=
  ∀ a,
    (s ≤ a → a < m → ledger calls l0 a = Mark.committed ∧ backed calls b0 a = true) ∧
    (m ≤ a → a < e → ledger calls l0 a = Mark.reserved ∧ backed calls b0 a = false)

/-! ## Machine arithmetic and alignment lemmas -/

theorem wsub_of_le {a b : Nat} (hb : b ≤ a) (ha : a < WORD) : wsub a b = a - b := by
  unfold wsub
  have hb' : b % WORD = b := Nat.mod_eq_of_lt (lt_of_le_of_lt hb ha)
  rw [hb']
  have : a + (WORD - b) = (a - b) + WORD := by omega
  rw [this, Nat.add_mod_right]
  exact Nat.mod_eq_of_lt (by omega)

theorem aligned_iff {P : Pal} {x : Nat} : IS_ALLOC_ALIGNED P x = true ↔ x % P.alloc_align = 0 := by
  simp [IS_ALLOC_ALIGNED]

/-- An aligned word below `WORD` leaves room for one granule below `WORD`. -/
theorem aligned_add_le {P : Pal} (hP : P.wf) {e : Nat} (he : e < WORD)
    (hal : e % P.alloc_align = 0) : e + P.alloc_align ≤ WORD := by
  obtain ⟨hg, ⟨m, hm⟩, -, -⟩ := hP
  obtain ⟨q, hq⟩ := Nat.dvd_of_mod_eq_zero hal
  rw [hm, hq] at he ⊢
  have hqm : q < m := lt_of_mul_lt_mul_left he (Nat.zero_le _)
  calc P.alloc_align * q + P.alloc_align = P.alloc_align * (q + 1) := by ring
    _ ≤ P.alloc_align * m := Nat.mul_le_mul_left _ hqm

theorem align_up_spec {P : Pal} (hP : P.wf) {x e : Nat} (hx : x ≤ e) (he : e < WORD)
    (hal : e % P.alloc_align = 0) :
    x ≤ ALLOC_ALIGN_UP P x ∧ ALLOC_ALIGN_UP P x ≤ e ∧ ALLOC_ALIGN_UP P x % P.alloc_align = 0 ∧
      ALLOC_ALIGN_UP P x < x + P.alloc_align := by
  have hroom := aligned_add_le hP he hal
  have hg : 0 < P.alloc_align := hP.1
  have hw : wadd x (P.alloc_align - 1) = x + (P.alloc_align - 1) :=
    Nat.mod_eq_of_lt (by omega)
  unfold ALLOC_ALIGN_UP ALLOC_ALIGN_DOWN
  rw [hw]
  set y := x + (P.alloc_align - 1) with hy
  have hmod : y % P.alloc_align < P.alloc_align := Nat.mod_lt _ hg
  have hdm := Nat.div_add_mod y P.alloc_align
  have heq : y - y % P.alloc_align = P.alloc_align * (y / P.alloc_align) := by omega
  obtain ⟨q, hq⟩ := Nat.dvd_of_mod_eq_zero hal
  refine ⟨by omega, ?_, ?_, by omega⟩
  · rw [heq, hq]
    apply Nat.mul_le_mul_left
    have : y < P.alloc_align * (q + 1) := by
      have : P.alloc_align * (q + 1) = e + P.alloc_align := by rw [hq]; ring
      omega
    have := (Nat.div_lt_iff_lt_mul hg).2 (by rw [Nat.mul_comm] at this; exact this)
    omega
  · rw [heq]; exact Nat.mul_mod_right _ _

theorem align_up_of_aligned {P : Pal} (hP : P.wf) {x : Nat} (hx : x < WORD)
    (hal : x % P.alloc_align = 0) : ALLOC_ALIGN_UP P x = x := by
  obtain ⟨h1, h2, -, -⟩ := align_up_spec hP (le_refl x) hx hal
  omega

/-! ## The paths of `shim_do_brk` -/

theorem brk_below {P : Pal} {env : BrkEnv} {w : World} {brk : Nat}
    (h : brk < w.brk_region.brk_start) :
    shim_do_brk P env w brk = .ok (w.brk_region.brk_current, w) := by
  simp [shim_do_brk, shim_do_brk_out, h]

theorem brk_above {P : Pal} {env : BrkEnv} {w : World} {brk : Nat}
    (h1 : ¬ brk < w.brk_region.brk_start)
    (h2 : ¬ brk ≤ ALLOC_ALIGN_UP P w.brk_region.brk_current)
    (h3 : brk > w.brk_region.brk_end) :
    shim_do_brk P env w brk = .ok (w.brk_region.brk_current, w) := by
  simp only [shim_do_brk, shim_do_brk_out, h1, h2, h3, if_true, if_false]

theorem brk_same_granule {P : Pal} {env : BrkEnv} {w : World} {brk : Nat}
    (h1 : ¬ brk < w.brk_region.brk_start)
    (h2 : brk ≤ ALLOC_ALIGN_UP P w.brk_region.brk_current)
    (h3 : wsub (ALLOC_ALIGN_UP P w.brk_region.brk_current) (ALLOC_ALIGN_UP P brk) = 0) :
    shim_do_brk P env w brk =
      .ok (brk, { w with brk_region := { w.brk_region with brk_current := brk } }) := by
  simp [shim_do_brk, shim_do_brk_out, h1, h2, h3]

theorem brk_shrink {P : Pal} {env : BrkEnv} {w : World} {brk : Nat}
    (h1 : ¬ brk < w.brk_region.brk_start)
    (h2 : brk ≤ ALLOC_ALIGN_UP P w.brk_region.brk_current)
    (h3 : wsub (ALLOC_ALIGN_UP P w.brk_region.brk_current) (ALLOC_ALIGN_UP P brk) ≠ 0)
    (h4 : env.bkeep_mmap_fixed (ALLOC_ALIGN_UP P brk)
      (wsub w.brk_region.brk_end (ALLOC_ALIGN_UP P brk)) PROT_NONE (MAP_FIXED ||| VMA_UNMAPPED) = 0) :
    shim_do_brk P env w brk =
      .ok (brk,
        { w with
          brk_region := { w.brk_region with brk_current := brk }
          calls := w.calls ++
            [.bkeep_mmap_fixed (ALLOC_ALIGN_UP P brk)
                (wsub w.brk_region.brk_end (ALLOC_ALIGN_UP P brk)) PROT_NONE
                (MAP_FIXED ||| VMA_UNMAPPED) 0,
             .DkVirtualMemoryFree (ALLOC_ALIGN_UP P brk)
                (wsub (ALLOC_ALIGN_UP P w.brk_region.brk_current) (ALLOC_ALIGN_UP P brk))] }) := by
  simp [shim_do_brk, shim_do_brk_out, World.log, h1, h2, h3, h4]

theorem brk_limit {P : Pal} {env : BrkEnv} {w : World} {brk : Nat}
    (h1 : ¬ brk < w.brk_region.brk_start)
    (h2 : ¬ brk ≤ ALLOC_ALIGN_UP P w.brk_region.brk_current)
    (h3 : ¬ brk > w.brk_region.brk_end)
    (h4 : w.rlimit_data < w.brk_region.data_segment_size
        ∨ wsub w.rlimit_data w.brk_region.data_segment_size
            < wsub (ALLOC_ALIGN_UP P brk) w.brk_region.brk_start) :
    shim_do_brk P env w brk = .ok (w.brk_region.brk_current, w) := by
  simp only [shim_do_brk, shim_do_brk_out, h1, h2, h3, h4, if_true, if_false]

theorem brk_grow {P : Pal} {env : BrkEnv} {w : World} {brk : Nat}
    (h1 : ¬ brk < w.brk_region.brk_start)
    (h2 : ¬ brk ≤ ALLOC_ALIGN_UP P w.brk_region.brk_current)
    (h3 : ¬ brk > w.brk_region.brk_end)
    (h4 : ¬ (w.rlimit_data < w.brk_region.data_segment_size
        ∨ wsub w.rlimit_data w.brk_region.data_segment_size
            < wsub (ALLOC_ALIGN_UP P brk) w.brk_region.brk_start))
    (h5 : wsub (ALLOC_ALIGN_UP P brk) (ALLOC_ALIGN_UP P w.brk_region.brk_current) ≠ 0)
    (h6 : ¬ env.bkeep_mmap_fixed (ALLOC_ALIGN_UP P w.brk_region.brk_current)
      (wsub (ALLOC_ALIGN_UP P brk) (ALLOC_ALIGN_UP P w.brk_region.brk_current))
      (PROT_READ ||| PROT_WRITE) (MAP_PRIVATE ||| MAP_ANONYMOUS ||| MAP_FIXED) < 0)
    (h7 : env.DkVirtualMemoryAlloc (ALLOC_ALIGN_UP P w.brk_region.brk_current)
      (wsub (ALLOC_ALIGN_UP P brk) (ALLOC_ALIGN_UP P w.brk_region.brk_current))
      0 (PAL_PROT_READ ||| PAL_PROT_WRITE) ≠ 0) :
    shim_do_brk P env w brk =
      .ok (brk,
        { w with
          brk_region := { w.brk_region with brk_current := brk }
          calls := w.calls ++
            [.bkeep_mmap_fixed (ALLOC_ALIGN_UP P w.brk_region.brk_current)
                (wsub (ALLOC_ALIGN_UP P brk) (ALLOC_ALIGN_UP P w.brk_region.brk_current))
                (PROT_READ ||| PROT_WRITE) (MAP_PRIVATE ||| MAP_ANONYMOUS ||| MAP_FIXED)
                (env.bkeep_mmap_fixed (ALLOC_ALIGN_UP P w.brk_region.brk_current)
                  (wsub (ALLOC_ALIGN_UP P brk) (ALLOC_ALIGN_UP P w.brk_region.brk_current))
                  (PROT_READ ||| PROT_WRITE) (MAP_PRIVATE ||| MAP_ANONYMOUS ||| MAP_FIXED)),
             .DkVirtualMemoryAlloc (ALLOC_ALIGN_UP P w.brk_region.brk_current)
                (wsub (ALLOC_ALIGN_UP P brk) (ALLOC_ALIGN_UP P w.brk_region.brk_current))
                0 (PAL_PROT_READ ||| PAL_PROT_WRITE)
                (env.DkVirtualMemoryAlloc (ALLOC_ALIGN_UP P w.brk_region.brk_current)
                  (wsub (ALLOC_ALIGN_UP P brk) (ALLOC_ALIGN_UP P w.brk_region.brk_current))
                  0 (PAL_PROT_READ ||| PAL_PROT_WRITE))] }) := by
  simp only [shim_do_brk, shim_do_brk_out, World.log, h1, h2, h3, h4, h5, h6, h7, if_true,
    if_false, List.append_assoc, List.singleton_append]

/-- In an initialized region the aligned current break stays inside the window. -/
theorem initialized_align {P : Pal} (hP : P.wf) {r : BrkRegion} (h : r.initialized P) :
    r.brk_current ≤ ALLOC_ALIGN_UP P r.brk_current ∧ ALLOC_ALIGN_UP P r.brk_current ≤ r.brk_end ∧
      ALLOC_ALIGN_UP P r.brk_current % P.alloc_align = 0 ∧
      ALLOC_ALIGN_UP P r.brk_current < r.brk_current + P.alloc_align ∧
      r.brk_start % P.alloc_align = 0 ∧ r.brk_end % P.alloc_align = 0 := by
  obtain ⟨h1, h2, h3, h4, h5⟩ := h
  have := align_up_spec hP h2 h3 (aligned_iff.1 h5)
  exact ⟨this.1, this.2.1, this.2.2.1, this.2.2.2, aligned_iff.1 h4, aligned_iff.1 h5⟩

theorem wsub_self_word {a : Nat} (ha : a < WORD) : wsub a a = 0 := by
  rw [wsub_of_le (le_refl a) ha]; simp

/-! ## C1 -/

/-- C1. Whenever `shim_do_brk` returns, the value returned is the current break stored
after the call, and the call either stored the request or left the whole region as it was.
On each rejection path of the code (request below `start`; request above `end`;
resource-limit violation; Bookkeeper failure on the grow and on the shrink path; allocator
failure) the region is unchanged and the value returned is the old current break. -/
theorem shim_do_brk_returns_current (P : Pal) (env : BrkEnv) (w : World) (brk v : Nat)
    (w' : World) (h : shim_do_brk P env w brk = .ok (v, w')) :
    v = w'.brk_region.brk_current ∧
    (w'.brk_region = { w.brk_region with brk_current := brk } ∨ w'.brk_region = w.brk_region) ∧
    w'.rlimit_data = w.rlimit_data ∧
    ((brk < w.brk_region.brk_start
      ∨ (¬ brk < w.brk_region.brk_start ∧ ¬ brk ≤ ALLOC_ALIGN_UP P w.brk_region.brk_current ∧
          (brk > w.brk_region.brk_end
          ∨ w.rlimit_data < w.brk_region.data_segment_size
          ∨ wsub w.rlimit_data w.brk_region.data_segment_size
              < wsub (ALLOC_ALIGN_UP P brk) w.brk_region.brk_start
          ∨ env.bkeep_mmap_fixed (ALLOC_ALIGN_UP P w.brk_region.brk_current)
              (wsub (ALLOC_ALIGN_UP P brk) (ALLOC_ALIGN_UP P w.brk_region.brk_current))
              (PROT_READ ||| PROT_WRITE) (MAP_PRIVATE ||| MAP_ANONYMOUS ||| MAP_FIXED) < 0
          ∨ env.DkVirtualMemoryAlloc (ALLOC_ALIGN_UP P w.brk_region.brk_current)
              (wsub (ALLOC_ALIGN_UP P brk) (ALLOC_ALIGN_UP P w.brk_region.brk_current))
              0 (PAL_PROT_READ ||| PAL_PROT_WRITE) = 0))
      ∨ (¬ brk < w.brk_region.brk_start ∧ brk ≤ ALLOC_ALIGN_UP P w.brk_region.brk_current ∧
          wsub (ALLOC_ALIGN_UP P w.brk_region.brk_current) (ALLOC_ALIGN_UP P brk) ≠ 0 ∧
          env.bkeep_mmap_fixed (ALLOC_ALIGN_UP P brk)
              (wsub w.brk_region.brk_end (ALLOC_ALIGN_UP P brk))
              PROT_NONE (MAP_FIXED ||| VMA_UNMAPPED) ≠ 0)) →
      w'.brk_region = w.brk_region ∧ v = w.brk_region.brk_current) := by
  unfold shim_do_brk at h
  simp only [shim_do_brk_out, World.log] at h
  split_ifs at h <;> simp only [Except.ok.injEq, Prod.mk.injEq] at h <;>
    obtain ⟨rfl, rfl⟩ := h <;> simp_all

/-- Witness for C1: in the scenario, a grow request to `0x4800` that the Bookkeeper refuses
returns the old break `0x3500`. -/
theorem shim_do_brk_returns_current_witness :
    shim_do_brk pal4k failEnv scenario 0x4800 =
        .ok (0x3500, scenario.log (.bkeep_mmap_fixed 0x4000 0x1000 3 0x32 (-12))) ∧
      (scenario.log (.bkeep_mmap_fixed 0x4000 0x1000 3 0x32 (-12))).brk_region
        = scenario.brk_region ∧
      (0x3500 : Nat) = scenario.brk_region.brk_current :=
  ⟨by decide,
   ((shim_do_brk_returns_current pal4k failEnv scenario 0x4800 0x3500
      (scenario.log (.bkeep_mmap_fixed 0x4000 0x1000 3 0x32 (-12))) (by decide)).2.2.2
      (Or.inr (Or.inl (by decide))))⟩

/-! ## C2 -/

/-- C2. Boundary rejection: in an initialized state, a request below `start` or above `end`
returns the prior current break and leaves the whole state as it was: every field of the
region, the resource limit, and the list of Bookkeeper / Allocator calls (none is made). -/
theorem shim_do_brk_boundary_rejection (P : Pal) (hP : P.wf) (env : BrkEnv) (w : World)
    (hinit : w.brk_region.initialized P) (r : Nat)
    (hr : r < w.brk_region.brk_start ∨ r > w.brk_region.brk_end) :
    shim_do_brk P env w r = .ok (w.brk_region.brk_current, w) := by
  rcases hr with hr | hr
  · exact brk_below hr
  · have ha := initialized_align hP hinit
    have h1 := hinit.1
    have h2 := hinit.2.1
    exact brk_above (by omega) (by omega) hr

/-- Witness for C2: the request `0x6000`, beyond `end = 0x5000`, in the scenario. -/
theorem shim_do_brk_boundary_rejection_witness :
    pal4k.wf ∧ scenario.brk_region.initialized pal4k ∧
      shim_do_brk pal4k okEnv scenario 0x6000 = .ok (0x3500, scenario) :=
  ⟨by decide, by decide,
   shim_do_brk_boundary_rejection pal4k (by decide) okEnv scenario (by decide) 0x6000
     (Or.inr (by decide))⟩

/-! ## C3 -/

/-- C3, as stated, fails: in the scenario (initialized, `start = 0x1000`, current break
`0x3500`) the request `r = start = 0x1000` satisfies `r ≤ start` but is not rejected: it
shrinks the heap to `start`, calling the Bookkeeper and the Allocator, and returns `0x1000`
instead of the current break `0x3500`. -/
theorem shim_do_brk_query_at_start_counterexample :
    pal4k.wf ∧ scenario.brk_region.initialized pal4k ∧
    (0x1000 : Nat) ≤ scenario.brk_region.brk_start ∧
    shim_do_brk pal4k okEnv scenario 0x1000 =
      .ok (0x1000,
        { scenario with
          brk_region := { scenario.brk_region with brk_current := 0x1000 }
          calls :=
            [.bkeep_mmap_fixed 0x1000 0x4000 PROT_NONE (MAP_FIXED ||| VMA_UNMAPPED) 0,
             .DkVirtualMemoryFree 0x1000 0x3000] }) ∧
    shim_do_brk pal4k okEnv scenario 0x1000 ≠ .ok (scenario.brk_region.brk_current, scenario) := by
  decide

/-- C3, amended. Query idiom: in an initialized state, every request strictly below `start`
takes the below-window rejection path, and so does not change anything: it returns the
current break, leaves the state as it was and calls neither the Bookkeeper nor the
Allocator. The same result is obtained for the request `start` when the current break is
`start`. -/
theorem shim_do_brk_query (P : Pal) (hP : P.wf) (env : BrkEnv) (w : World)
    (hinit : w.brk_region.initialized P) (r : Nat)
    (hr : r < w.brk_region.brk_start
      ∨ (r = w.brk_region.brk_start ∧ w.brk_region.brk_current = w.brk_region.brk_start)) :
    shim_do_brk P env w r = .ok (w.brk_region.brk_current, w) := by
  rcases hr with hr | ⟨hr, hcur⟩
  · exact brk_below hr
  · have ha := initialized_align hP hinit
    have hw : ALLOC_ALIGN_UP P w.brk_region.brk_current < WORD :=
      lt_of_le_of_lt ha.2.1 hinit.2.2.1
    have hrc : r = w.brk_region.brk_current := by rw [hr, hcur]
    subst hrc
    rw [brk_same_granule (by omega) ha.1 (wsub_self_word hw)]

/-- Witness for C3 (amended): the request 0 in the scenario. -/
theorem shim_do_brk_query_witness :
    pal4k.wf ∧ scenario.brk_region.initialized pal4k ∧
      shim_do_brk pal4k okEnv scenario 0 = .ok (0x3500, scenario) :=
  ⟨by decide, by decide,
   shim_do_brk_query pal4k (by decide) okEnv scenario (by decide) 0 (Or.inl (by decide))⟩

/-! ## C4 -/

/-- C4. Idempotent query: in an initialized state, `shim_do_brk(current)` returns `current`
and leaves the whole state as it was (region, resource limit, and no Bookkeeper / Allocator
call); hence any number of repeated calls, whatever the collaborators would answer, all
return `current` and end in the state they started from. -/
theorem shim_do_brk_idempotent_query (P : Pal) (hP : P.wf) (w : World)
    (hinit : w.brk_region.initialized P) :
    (∀ env : BrkEnv,
      shim_do_brk P env w w.brk_region.brk_current = .ok (w.brk_region.brk_current, w)) ∧
    (∀ envs : List BrkEnv,
      shim_do_brk_seq P (envs.map fun env => (env, w.brk_region.brk_current)) w
        = .ok (List.replicate envs.length w.brk_region.brk_current, w)) := by
  have ha := initialized_align hP hinit
  have hw : ALLOC_ALIGN_UP P w.brk_region.brk_current < WORD :=
    lt_of_le_of_lt ha.2.1 hinit.2.2.1
  have hone : ∀ env : BrkEnv,
      shim_do_brk P env w w.brk_region.brk_current = .ok (w.brk_region.brk_current, w) := by
    intro env
    rw [brk_same_granule (by have := hinit.1; omega) ha.1 (wsub_self_word hw)]
  refine ⟨hone, ?_⟩
  intro envs
  induction envs with
  | nil => rfl
  | cons env rest ih =>
    simp only [List.map_cons, shim_do_brk_seq, hone env, ih, List.length_cons,
      List.replicate_succ]

/-- Witness for C4: three queries of the current break in the scenario. -/
theorem shim_do_brk_idempotent_query_witness :
    pal4k.wf ∧ scenario.brk_region.initialized pal4k ∧
      shim_do_brk_seq pal4k [(okEnv, 0x3500), (failEnv, 0x3500), (okEnv, 0x3500)] scenario
        = .ok ([0x3500, 0x3500, 0x3500], scenario) :=
  ⟨by decide, by decide,
   (shim_do_brk_idempotent_query pal4k (by decide) scenario (by decide)).2
     [okEnv, failEnv, okEnv]⟩

/-- A request for the current break itself changes nothing and calls no collaborator. -/
theorem brk_at_current {P : Pal} (hP : P.wf) {w : World} (hinit : w.brk_region.initialized P)
    (env : BrkEnv) :
    shim_do_brk P env w w.brk_region.brk_current = .ok (w.brk_region.brk_current, w) := by
  have ha := initialized_align hP hinit
  have hw : ALLOC_ALIGN_UP P w.brk_region.brk_current < WORD :=
    lt_of_le_of_lt ha.2.1 hinit.2.2.1
  rw [brk_same_granule (by have := hinit.1; omega) ha.1 (wsub_self_word hw)]

theorem ledger_append (c1 c2 : List Call) (l : Nat → Mark) :
    ledger (c1 ++ c2) l = ledger c2 (ledger c1 l) := by
  simp [ledger, List.foldl_append]

theorem backed_append (c1 c2 : List Call) (b : Nat → Bool) :
    backed (c1 ++ c2) b = backed c2 (backed c1 b) := by
  simp [backed, List.foldl_append]

theorem unmapped_flags : ¬ ((MAP_FIXED ||| VMA_UNMAPPED) &&& VMA_UNMAPPED = 0) := by decide

theorem committed_flags : (MAP_PRIVATE ||| MAP_ANONYMOUS ||| MAP_FIXED) &&& VMA_UNMAPPED = 0 := by
  decide

theorem okEnv_succeeds : okEnv.succeeds := by
  refine ⟨fun _ _ _ _ => rfl, fun a _ _ _ => ?_⟩
  simp only [okEnv]
  split_ifs with h
  · decide
  · exact h

/-! ## C5 -/

/-- C5. Growth/shrink round trip: from a freshly initialized region (current break at
`start`, the whole window reserved in the ledger and not backed), the calls
`shim_do_brk(start)`, `shim_do_brk(start + k)`, `shim_do_brk(start)` with `0 < k < max_size`
and Bookkeeper and Allocator calls succeeding all return, the last one returns `start`, the
region is again the initial one (`current = start`), and the Bookkeeper ledger and the set of
backed addresses are, at every address, what they were before the growth. The middle call
returns `start + k` when the resource limit admits the growth. -/
theorem shim_do_brk_round_trip (P : Pal) (hP : P.wf) (e1 e2 e3 : BrkEnv)
    (h2 : e2.succeeds) (h3 : e3.succeeds) (w : World) (hinit : w.brk_region.initialized P)
    (hfresh : w.brk_region.brk_current = w.brk_region.brk_start)
    (l0 : Nat → Mark) (b0 : Nat → Bool)
    (hempty : ∀ a, w.brk_region.brk_start ≤ a → a < w.brk_region.brk_end →
      ledger w.calls l0 a = Mark.reserved ∧ backed w.calls b0 a = false)
    (k : Nat) (hk : 0 < k) (hkmax : k < w.brk_region.brk_end - w.brk_region.brk_start) :
    ∃ v w',
      shim_do_brk_seq P
          [(e1, w.brk_region.brk_start), (e2, w.brk_region.brk_start + k),
           (e3, w.brk_region.brk_start)] w
        = .ok ([w.brk_region.brk_start, v, w.brk_region.brk_start], w') ∧
      w'.brk_region = w.brk_region ∧
      w'.brk_region.brk_current = w.brk_region.brk_start ∧
      w'.rlimit_data = w.rlimit_data ∧
      (∀ a, ledger w'.calls l0 a = ledger w.calls l0 a) ∧
      (∀ a, backed w'.calls b0 a = backed w.calls b0 a) ∧
      (¬ (w.rlimit_data < w.brk_region.data_segment_size
          ∨ wsub w.rlimit_data w.brk_region.data_segment_size
              < wsub (ALLOC_ALIGN_UP P (w.brk_region.brk_start + k)) w.brk_region.brk_start) →
        v = w.brk_region.brk_start + k) := by
  obtain ⟨⟨r_dss, s, c, e⟩, rl, lk, cs⟩ := w
  simp only at hfresh hempty hkmax ⊢
  subst hfresh
  have ha := initialized_align hP hinit
  obtain ⟨hi1, hi2, hi3, hi4, hi5⟩ := hinit
  simp only at ha hi1 hi2 hi3 hi4 hi5
  have hsal : ALLOC_ALIGN_UP P c = c := align_up_of_aligned hP (by omega) ha.2.2.2.2.1
  obtain ⟨hA1, hA2, hA3, hA4⟩ := align_up_spec hP (x := c + k) (by omega) hi3 ha.2.2.2.2.2
  set A := ALLOC_ALIGN_UP P (c + k) with hAdef
  have hsize : wsub A c = A - c := wsub_of_le (by omega) (by omega)
  have hlen : wsub e c = e - c := wsub_of_le (by omega) hi3
  have hstep1 := brk_at_current hP
    (w := ⟨⟨r_dss, c, c, e⟩, rl, lk, cs⟩) ⟨hi1, hi2, hi3, hi4, hi5⟩ e1
  by_cases hlim : rl < r_dss ∨ wsub rl r_dss < wsub A c
  · -- the resource limit rejects the growth: nothing happens at all
    have hstep2 : shim_do_brk P e2 ⟨⟨r_dss, c, c, e⟩, rl, lk, cs⟩ (c + k)
        = .ok (c, ⟨⟨r_dss, c, c, e⟩, rl, lk, cs⟩) :=
      brk_limit (by simp) (by simp only [hsal]; omega) (by simp only; omega)
        (by simpa only [← hAdef] using hlim)
    have hstep3 := brk_at_current hP
      (w := ⟨⟨r_dss, c, c, e⟩, rl, lk, cs⟩) ⟨hi1, hi2, hi3, hi4, hi5⟩ e3
    refine ⟨c, ⟨⟨r_dss, c, c, e⟩, rl, lk, cs⟩, ?_, rfl, rfl, rfl, fun _ => rfl, fun _ => rfl, ?_⟩
    · simp only at hstep1 hstep3
      simp only [shim_do_brk_seq, hstep1, hstep2, hstep3]
    · intro hn; exact absurd hlim hn
  · have hstep2 := @brk_grow P e2 ⟨⟨r_dss, c, c, e⟩, rl, lk, cs⟩
      (c + k) (by simp) (by simp only [hsal]; omega) (by simp only; omega)
      (by simpa only [← hAdef] using hlim)
      (by simp only [hsal, ← hAdef, hsize]; omega)
      (by simp [h2.1]) (h2.2 _ _ _ _)
    simp only [hsal, ← hAdef, hsize, h2.1] at hstep2
    have hstep3 := @brk_shrink P e3
      (⟨⟨r_dss, c, c + k, e⟩, rl, lk, cs ++
        [.bkeep_mmap_fixed c (A - c) (PROT_READ ||| PROT_WRITE)
            (MAP_PRIVATE ||| MAP_ANONYMOUS ||| MAP_FIXED) 0,
         .DkVirtualMemoryAlloc c (A - c) 0 (PAL_PROT_READ ||| PAL_PROT_WRITE)
            (e2.DkVirtualMemoryAlloc c (A - c) 0 (PAL_PROT_READ ||| PAL_PROT_WRITE))]⟩)
      c (by simp) (by simp only [← hAdef]; omega)
      (by simp only [hsal, ← hAdef, hsize]; omega) (h3.1 _ _ _ _)
    simp only [hsal, ← hAdef, hsize, hlen] at hstep3
    refine ⟨c + k, ⟨⟨r_dss, c, c, e⟩, rl, lk, (cs ++
        [.bkeep_mmap_fixed c (A - c) (PROT_READ ||| PROT_WRITE)
            (MAP_PRIVATE ||| MAP_ANONYMOUS ||| MAP_FIXED) 0,
         .DkVirtualMemoryAlloc c (A - c) 0 (PAL_PROT_READ ||| PAL_PROT_WRITE)
            (e2.DkVirtualMemoryAlloc c (A - c) 0 (PAL_PROT_READ ||| PAL_PROT_WRITE))]) ++
        [.bkeep_mmap_fixed c (e - c) PROT_NONE (MAP_FIXED ||| VMA_UNMAPPED) 0,
         .DkVirtualMemoryFree c (A - c)]⟩, ?_, rfl, rfl, rfl, ?_, ?_, fun _ => rfl⟩
    · simp only at hstep1
      simp only [shim_do_brk_seq, hstep1, hstep2, hstep3]
    · intro a
      have hm := h2.2 c (A - c) 0 (PAL_PROT_READ ||| PAL_PROT_WRITE)
      simp only [List.append_assoc, ledger_append]
      simp only [ledger, List.foldl, ledger_step, List.singleton_append, List.cons_append,
        List.nil_append, if_true, unmapped_flags, committed_flags, if_false]
      by_cases hin : c ≤ a ∧ a < c + (e - c)
      · rw [if_pos hin]
        exact ((hempty a hin.1 (by omega)).1).symm
      · rw [if_neg hin, if_neg (by omega)]
    · intro a
      have hm := h2.2 c (A - c) 0 (PAL_PROT_READ ||| PAL_PROT_WRITE)
      simp only [List.append_assoc, backed_append]
      simp only [backed, List.foldl, backed_step, List.singleton_append, List.cons_append,
        List.nil_append, if_neg hm]
      by_cases hin : c ≤ a ∧ a < c + (A - c)
      · rw [if_pos hin]
        exact ((hempty a hin.1 (by omega)).2).symm
      · rw [if_neg hin, if_neg hin]

/-- Witness for C5: the scenario right after initialization, with `k = 0x2500`. -/
theorem shim_do_brk_round_trip_witness :
    pal4k.wf ∧ okEnv.succeeds ∧ scenario_fresh.brk_region.initialized pal4k ∧
    ∃ v w',
      shim_do_brk_seq pal4k
          [(okEnv, scenario_fresh.brk_region.brk_start),
           (okEnv, scenario_fresh.brk_region.brk_start + 0x2500),
           (okEnv, scenario_fresh.brk_region.brk_start)] scenario_fresh
        = .ok ([scenario_fresh.brk_region.brk_start, v, scenario_fresh.brk_region.brk_start], w') ∧
      w'.brk_region = scenario_fresh.brk_region ∧
      (∀ a, ledger w'.calls (fun _ => Mark.reserved) a
        = ledger scenario_fresh.calls (fun _ => Mark.reserved) a) ∧
      (∀ a, backed w'.calls (fun _ => false) a = backed scenario_fresh.calls (fun _ => false) a) :=
  ⟨by decide, okEnv_succeeds, by decide,
   (shim_do_brk_round_trip pal4k (by decide) okEnv okEnv okEnv okEnv_succeeds okEnv_succeeds
      scenario_fresh (by decide) rfl (fun _ => Mark.reserved) (fun _ => false)
      (fun _ _ _ => ⟨rfl, rfl⟩) 0x2500 (by decide) (by decide)).imp
     fun _ hv => hv.imp fun _ hw => ⟨hw.1, hw.2.1, hw.2.2.2.2.1, hw.2.2.2.2.2.1⟩⟩

/-- Once the resource-limit check has let a grow request through, the Bookkeeper is called:
whatever is returned, the log of calls has grown. -/
theorem brk_grow_calls {P : Pal} {env : BrkEnv} {w : World} {brk : Nat}
    (h1 : ¬ brk < w.brk_region.brk_start)
    (h2 : ¬ brk ≤ ALLOC_ALIGN_UP P w.brk_region.brk_current)
    (h3 : ¬ brk > w.brk_region.brk_end)
    (h4 : ¬ (w.rlimit_data < w.brk_region.data_segment_size
        ∨ wsub w.rlimit_data w.brk_region.data_segment_size
            < wsub (ALLOC_ALIGN_UP P brk) w.brk_region.brk_start))
    {v : Nat} {w' : World} (h : shim_do_brk P env w brk = .ok (v, w')) :
    w.calls.length < w'.calls.length := by
  unfold shim_do_brk at h
  simp only [shim_do_brk_out, World.log, h1, h2, h3, h4, if_false] at h
  split_ifs at h <;> simp only [Except.ok.injEq, Prod.mk.injEq] at h <;>
    obtain ⟨-, rfl⟩ := h <;> simp

/-! ## C6 -/

/-- C6. Resource-limit enforcement, in an initialized state. (1) With
`RLIMIT_DATA = data_segment_size + N`, `N` a multiple of the granularity, `N < max_size` and
`current ≤ start + N`: the aligned size of the request `start + N + 1` exceeds `N` and the
request is rejected, returning the old current break with the state untouched and no
collaborator called; the request `start + N`, with Bookkeeper and Allocator succeeding,
returns `start + N` and stores it. (2) For every grow request
(`align_up(current) < requested ≤ end`): the call returns the old break without having
called any collaborator exactly when `rlim_data < data_segment_size` or
`rlim_data - data_segment_size < align_up(requested) - start`; and with Bookkeeper and
Allocator succeeding it is rejected (returns the old break) exactly in that case, and
otherwise returns the request. -/
theorem shim_do_brk_rlimit_enforcement (P : Pal) (hP : P.wf) (env : BrkEnv) (w : World)
    (hinit : w.brk_region.initialized P) :
    (∀ N, w.rlimit_data = w.brk_region.data_segment_size + N → w.rlimit_data < WORD →
      N % P.alloc_align = 0 → N < w.brk_region.brk_end - w.brk_region.brk_start →
      w.brk_region.brk_current ≤ w.brk_region.brk_start + N →
        N < ALLOC_ALIGN_UP P (w.brk_region.brk_start + N + 1) - w.brk_region.brk_start ∧
        shim_do_brk P env w (w.brk_region.brk_start + N + 1)
          = .ok (w.brk_region.brk_current, w) ∧
        (env.succeeds → ∃ w',
          shim_do_brk P env w (w.brk_region.brk_start + N)
            = .ok (w.brk_region.brk_start + N, w') ∧
          w'.brk_region =
            { w.brk_region with brk_current := w.brk_region.brk_start + N })) ∧
    (∀ brk, ALLOC_ALIGN_UP P w.brk_region.brk_current < brk → brk ≤ w.brk_region.brk_end →
      (shim_do_brk P env w brk = .ok (w.brk_region.brk_current, w) ↔
        (w.rlimit_data < w.brk_region.data_segment_size
          ∨ wsub w.rlimit_data w.brk_region.data_segment_size
              < ALLOC_ALIGN_UP P brk - w.brk_region.brk_start)) ∧
      (env.succeeds →
        ((∃ w', shim_do_brk P env w brk = .ok (w.brk_region.brk_current, w')) ↔
          (w.rlimit_data < w.brk_region.data_segment_size
            ∨ wsub w.rlimit_data w.brk_region.data_segment_size
                < ALLOC_ALIGN_UP P brk - w.brk_region.brk_start)) ∧
        (¬ (w.rlimit_data < w.brk_region.data_segment_size
            ∨ wsub w.rlimit_data w.brk_region.data_segment_size
                < ALLOC_ALIGN_UP P brk - w.brk_region.brk_start) →
          ∃ w', shim_do_brk P env w brk = .ok (brk, w') ∧
            w'.brk_region = { w.brk_region with brk_current := brk }))) := by
  have ha := initialized_align hP hinit
  obtain ⟨hi1, hi2, hi3, hi4, hi5⟩ := hinit
  obtain ⟨hc1, hc2, hc3, hc4, hs, he⟩ := ha
  constructor
  · intro N hrl hrlw hN hNmax hcur
    have hsN : (w.brk_region.brk_start + N) % P.alloc_align = 0 := by
      rw [Nat.add_mod, hs, hN]; simp
    have hsNw : w.brk_region.brk_start + N < WORD := by omega
    obtain ⟨hx1, hx2, hx3, hx4⟩ :=
      align_up_spec hP (x := w.brk_region.brk_start + N + 1) (by omega) hi3 he
    obtain ⟨hy1, hy2, -, -⟩ := align_up_spec hP hcur hsNw hsN
    have hsNal := align_up_of_aligned hP hsNw hsN
    have hrlsub : wsub w.rlimit_data w.brk_region.data_segment_size = N := by
      rw [wsub_of_le (by omega) hrlw]; omega
    refine ⟨by omega, ?_, ?_⟩
    · refine brk_limit (by omega) (by omega) (by omega) (Or.inr ?_)
      rw [hrlsub, wsub_of_le (by omega) (by omega)]
      omega
    · intro hsucc
      by_cases hcase : w.brk_region.brk_start + N ≤ ALLOC_ALIGN_UP P w.brk_region.brk_current
      · refine ⟨_, brk_same_granule (by omega) hcase ?_, rfl⟩
        rw [hsNal, wsub_of_le (by omega) (by omega)]
        omega
      · have hsize : wsub (ALLOC_ALIGN_UP P (w.brk_region.brk_start + N))
            (ALLOC_ALIGN_UP P w.brk_region.brk_current) ≠ 0 := by
          rw [hsNal, wsub_of_le (by omega) hsNw]; omega
        refine ⟨_, brk_grow (by omega) hcase (by omega) ?_ hsize ?_ (hsucc.2 _ _ _ _), rfl⟩
        · rw [hrlsub, hsNal, wsub_of_le (by omega) hsNw]
          omega
        · rw [hsucc.1]; decide
  · intro brk hb1 hb2
    obtain ⟨hx1, hx2, hx3, hx4⟩ := align_up_spec hP hb2 hi3 he
    have hsz : wsub (ALLOC_ALIGN_UP P brk) w.brk_region.brk_start
        = ALLOC_ALIGN_UP P brk - w.brk_region.brk_start :=
      wsub_of_le (by omega) (by omega)
    have hsize : wsub (ALLOC_ALIGN_UP P brk) (ALLOC_ALIGN_UP P w.brk_region.brk_current) ≠ 0 := by
      rw [wsub_of_le (by omega) (by omega)]; omega
    have hrej : (w.rlimit_data < w.brk_region.data_segment_size
          ∨ wsub w.rlimit_data w.brk_region.data_segment_size
              < ALLOC_ALIGN_UP P brk - w.brk_region.brk_start) →
        shim_do_brk P env w brk = .ok (w.brk_region.brk_current, w) := by
      intro hv
      exact brk_limit (by omega) (by omega) (by omega) (by rw [hsz]; exact hv)
    refine ⟨⟨?_, hrej⟩, ?_⟩
    · intro hres
      by_contra hv
      have := brk_grow_calls (by omega) (by omega) (by omega) (by rw [hsz]; exact hv) hres
      omega
    · intro hsucc
      have hacc : ¬ (w.rlimit_data < w.brk_region.data_segment_size
            ∨ wsub w.rlimit_data w.brk_region.data_segment_size
                < ALLOC_ALIGN_UP P brk - w.brk_region.brk_start) →
          ∃ w', shim_do_brk P env w brk = .ok (brk, w') ∧
            w'.brk_region = { w.brk_region with brk_current := brk } := by
        intro hv
        exact ⟨_, brk_grow (by omega) (by omega) (by omega) (by rw [hsz]; exact hv) hsize
          (by rw [hsucc.1]; decide) (hsucc.2 _ _ _ _), rfl⟩
      refine ⟨⟨?_, fun hv => ⟨w, hrej hv⟩⟩, hacc⟩
      rintro ⟨w', hres⟩
      by_contra hv
      obtain ⟨w'', hres'', -⟩ := hacc hv
      rw [hres''] at hres
      simp only [Except.ok.injEq, Prod.mk.injEq] at hres
      omega

/-- Witness for C6: window `[0x1000, 0x5000)`, `RLIMIT_DATA = data_segment_size + 0x3000`:
the request `0x4001` is rejected, the request `0x4000` is granted. -/
theorem shim_do_brk_rlimit_enforcement_witness :
    pal4k.wf ∧ scenario_limited.brk_region.initialized pal4k ∧
      shim_do_brk pal4k okEnv scenario_limited (scenario_limited.brk_region.brk_start + 0x3000 + 1)
        = .ok (scenario_limited.brk_region.brk_current, scenario_limited) ∧
      ∃ w', shim_do_brk pal4k okEnv scenario_limited (scenario_limited.brk_region.brk_start + 0x3000)
          = .ok (scenario_limited.brk_region.brk_start + 0x3000, w') ∧
        w'.brk_region = { scenario_limited.brk_region with
          brk_current := scenario_limited.brk_region.brk_start + 0x3000 } :=
  ⟨by decide, by decide,
   (((shim_do_brk_rlimit_enforcement pal4k (by decide) okEnv scenario_limited (by decide)).1
      0x3000 (by decide) (by decide) (by decide) (by decide) (by decide)).2.1),
   (((shim_do_brk_rlimit_enforcement pal4k (by decide) okEnv scenario_limited (by decide)).1
      0x3000 (by decide) (by decide) (by decide) (by decide) (by decide)).2.2 okEnv_succeeds)⟩

theorem wadd_wsub_of_le {a b : Nat} (hb : b ≤ a) (ha : a < WORD) : wadd b (wsub a b) = a := by
  rw [wsub_of_le hb ha]
  unfold wadd
  rw [Nat.add_sub_cancel' hb]
  exact Nat.mod_eq_of_lt ha

/-! ## C7 -/

/-- C7. Checkpoint round trip: for a region with `start ≤ current ≤ end` (machine words),
the serializer emits `(start, current - start, end - start, data_segment_size)`, and the
restorer, whatever the rebase argument and whatever follows in the store, rebuilds a
region with the same `start`, `current`, `end` and `data_segment_size`; the result of the
restorer never depends on the rebase argument. -/
theorem brk_checkpoint_round_trip (r : BrkRegion) (h1 : r.brk_start ≤ r.brk_current)
    (h2 : r.brk_current ≤ r.brk_end) (hw : r.brk_end < WORD) :
    cp_brk r =
      [.func r.brk_start, .size (r.brk_current - r.brk_start),
       .size (r.brk_end - r.brk_start), .size r.data_segment_size] ∧
    (∀ rebase rest, rs_brk rebase (cp_brk r ++ rest) = some r) ∧
    (∀ rebase rebase' entries, rs_brk rebase entries = rs_brk rebase' entries) := by
  refine ⟨?_, ?_, ?_⟩
  · simp only [cp_brk, wsub_of_le h1 (lt_of_le_of_lt h2 hw), wsub_of_le (le_trans h1 h2) hw]
  · intro rebase rest
    simp only [cp_brk, rs_brk, List.cons_append, List.nil_append,
      wadd_wsub_of_le h1 (lt_of_le_of_lt h2 hw), wadd_wsub_of_le (le_trans h1 h2) hw]
  · intro rebase rebase' entries
    unfold rs_brk
    split <;> rfl

/-- Witness for C7: the region of the scenario, restored with a non-zero rebase. -/
theorem brk_checkpoint_round_trip_witness :
    rs_brk 0x7000 (cp_brk scenario.brk_region) = some scenario.brk_region :=
  (brk_checkpoint_round_trip scenario.brk_region (by decide) (by decide) (by decide)).2.1
    0x7000 []

/-! ## C8 -/

/-- C8. `init_brk_region` returns `-EINVAL` whenever a non-null preferred start is not
allocation-aligned or the resolved maximum heap size is not allocation-aligned, and the
state is then what it was: no Bookkeeper call has been made, the data resource limit and
every field of the region are unchanged. -/
theorem init_brk_region_invalid_alignment (P : Pal) (env : InitEnv) (w : World)
    (brk_start data_segment_size : Nat)
    (h : (brk_start ≠ 0 ∧ IS_ALLOC_ALIGNED P brk_start = false)
      ∨ IS_ALLOC_ALIGNED P (init_brk_max_size P env) = false) :
    init_brk_region P env w brk_start data_segment_size = (-EINVAL, w) := by
  unfold init_brk_region
  rcases h with h | h
  · simp only [h, ne_eq, not_false_eq_true, and_self, if_true]
  · simp only [h, if_true]
    split_ifs <;> rfl

/-- Witness for C8: a configured maximum heap size `0x4100` with granularity `0x1000`. -/
theorem init_brk_region_invalid_alignment_witness :
    init_brk_region pal4k (initEnv 0x4100) scenario 0x1000 0x1800 = (-EINVAL, scenario) :=
  init_brk_region_invalid_alignment pal4k (initEnv 0x4100) scenario 0x1000 0x1800
    (Or.inr (by decide))

theorem wsub_lt_word (a b : Nat) : wsub a b < WORD := Nat.mod_lt _ (by decide)

/-- The randomized start stays below `ceiling - max_size`. -/
theorem init_brk_offset_lt (P : Pal) (bits b M : Nat) (hb : b < wsub P.user_address_end M) :
    b + init_brk_offset P bits b M < wsub P.user_address_end M := by
  have hX := wsub_lt_word P.user_address_end M
  have hD : wsub (wsub P.user_address_end M) b = wsub P.user_address_end M - b :=
    wsub_of_le (le_of_lt hb) hX
  unfold init_brk_offset
  split_ifs with haslr
  · rw [hD]
    have hm : 0 < min 0x2000000 (wsub P.user_address_end M - b) := by
      apply lt_min (by decide); omega
    have h1 := Nat.mod_lt (bits % WORD) hm
    have h2 : min 0x2000000 (wsub P.user_address_end M - b) ≤ wsub P.user_address_end M - b :=
      min_le_right _ _
    have h3 : ALLOC_ALIGN_DOWN P
        ((bits % WORD) % min 0x2000000 (wsub P.user_address_end M - b))
          ≤ (bits % WORD) % min 0x2000000 (wsub P.user_address_end M - b) := by
      unfold ALLOC_ALIGN_DOWN; exact Nat.sub_le _ _
    omega
  · omega

theorem init_brk_start_pos (P : Pal) (bits b M : Nat) (hb0 : b ≠ 0)
    (hb : b < wsub P.user_address_end M) :
    wadd b (init_brk_offset P bits b M) ≠ 0 := by
  have h1 := init_brk_offset_lt P bits b M hb
  have hX := wsub_lt_word P.user_address_end M
  unfold wadd
  rw [Nat.mod_eq_of_lt (by omega)]
  omega

/-- What the preferred-start block of `init_brk_region` leaves behind when it does not
return early. -/
theorem init_brk_region_preferred_ok {P : Pal} {env : InitEnv} {w w1 : World} {b M s : Nat}
    (h : init_brk_region_preferred P env w b M = .ok (s, w1)) :
    (s = 0 ∧ w1 = w) ∨
    (s = 0 ∧ w1 = w.log (.bkeep_mmap_fixed (wadd b (init_brk_offset P env.DkRandomBitsRead.2 b M))
        M PROT_NONE (MAP_FIXED_NOREPLACE ||| VMA_UNMAPPED) (-EEXIST))) ∨
    (s ≠ 0 ∧ s = wadd b (init_brk_offset P env.DkRandomBitsRead.2 b M) ∧
      ∃ ret, 0 ≤ ret ∧
        w1 = w.log (.bkeep_mmap_fixed s M PROT_NONE (MAP_FIXED_NOREPLACE ||| VMA_UNMAPPED) ret)) := by
  simp only [init_brk_region_preferred] at h
  split_ifs at h with hc ha he hneg
  · simp only [Except.ok.injEq, Prod.mk.injEq] at h
    obtain ⟨rfl, rfl⟩ := h
    right; left
    exact ⟨rfl, by rw [he]⟩
  · simp only [Except.ok.injEq, Prod.mk.injEq] at h
    obtain ⟨rfl, rfl⟩ := h
    right; right
    exact ⟨init_brk_start_pos P _ b M hc.1 hc.2.2.2, rfl, _, not_lt.1 hneg, rfl⟩
  · simp only [Except.ok.injEq, Prod.mk.injEq] at h
    obtain ⟨rfl, rfl⟩ := h
    left
    exact ⟨rfl, rfl⟩

theorem init_brk_region_any_ok {P : Pal} {env : InitEnv} {w w1 : World} {b M s : Nat}
    (h : init_brk_region_any P env w b M = .ok (s, w1)) :
    (b ≠ 0 ∧ s = b ∧ w1 = w) ∨
    (b = 0 ∧ ∃ ret, 0 ≤ ret ∧
      w1 = w.log (.bkeep_mmap_any P.ENABLE_ASLR M PROT_NONE VMA_UNMAPPED ret s)) := by
  simp only [init_brk_region_any] at h
  split_ifs at h with hb hneg
  · simp only [Except.ok.injEq, Prod.mk.injEq] at h
    obtain ⟨rfl, rfl⟩ := h
    right
    exact ⟨hb, _, not_lt.1 hneg, rfl⟩
  · simp only [Except.ok.injEq, Prod.mk.injEq] at h
    obtain ⟨rfl, rfl⟩ := h
    left
    exact ⟨hb, rfl, rfl⟩

theorem backed_log_bkeep_mmap_fixed (cs : List Call) (b : Nat → Bool) (a l p f : Nat) (r : Int) :
    backed (cs ++ [.bkeep_mmap_fixed a l p f r]) b = backed cs b := by
  rw [backed_append]; rfl

theorem backed_log_bkeep_mmap_any (cs : List Call) (b : Nat → Bool) (x : Bool) (l p f : Nat)
    (r : Int) (a : Nat) :
    backed (cs ++ [.bkeep_mmap_any x l p f r a]) b = backed cs b := by
  rw [backed_append]; rfl

theorem init_brk_region_preferred_error {P : Pal} {env : InitEnv} {w : World} {b M : Nat}
    {r : Int × World} (herrno : ∀ e, 0 < e → 0 < env.convert_pal_errno e)
    (h : init_brk_region_preferred P env w b M = .error r) : r.1 ≠ 0 := by
  simp only [init_brk_region_preferred] at h
  split_ifs at h with hc ha he hneg
  · simp only [Except.error.injEq] at h
    subst h
    have := herrno (-env.DkRandomBitsRead.1) (by omega)
    simp only
    omega
  · simp only [Except.error.injEq] at h
    subst h
    simp only
    omega

theorem init_brk_region_any_error {P : Pal} {env : InitEnv} {w : World} {b M : Nat}
    {r : Int × World} (h : init_brk_region_any P env w b M = .error r) : r.1 ≠ 0 := by
  simp only [init_brk_region_any] at h
  split_ifs at h with hb hneg
  simp only [Except.error.injEq] at h
  subst h
  simp only
  omega

/-! ## C9 -/

/-- C9. Whenever `init_brk_region` returns 0, with `s` the start address finally reserved
and `max_size` the resolved maximum heap size: the region is `start = s`, `current = s`,
`end = s + max_size`, `data_segment_size = align_up` of the argument (all in machine
arithmetic), `RLIMIT_DATA` is `max_size + align_up(data_segment_size)`, and the calls made
are one of: the fixed reservation of `[s, s + max_size)` at the preferred start plus offset,
which succeeded; that fixed reservation refused with `-EEXIST` followed by a successful
reserve-anywhere that chose `s`; or the successful reserve-anywhere alone. Each reservation
is `PROT_NONE` and `VMA_UNMAPPED`, exactly one succeeded, and no Allocator call was made, so
the set of backed addresses is unchanged. -/
theorem init_brk_region_success (P : Pal) (env : InitEnv) (w w' : World)
    (brk_start data_segment_size : Nat)
    (herrno : ∀ e, 0 < e → 0 < env.convert_pal_errno e)
    (h : init_brk_region P env w brk_start data_segment_size = (0, w')) :
    ∃ s,
      w'.brk_region =
        { brk_start := s
          brk_current := s
          brk_end := (s + init_brk_max_size P env) % WORD
          data_segment_size := ALLOC_ALIGN_UP P data_segment_size } ∧
      w'.rlimit_data = (init_brk_max_size P env + ALLOC_ALIGN_UP P data_segment_size) % WORD ∧
      ((∃ ret, 0 ≤ ret ∧ s ≠ 0 ∧
          s = wadd brk_start
            (init_brk_offset P env.DkRandomBitsRead.2 brk_start (init_brk_max_size P env)) ∧
          w'.calls = w.calls ++
            [.bkeep_mmap_fixed s (init_brk_max_size P env) PROT_NONE
              (MAP_FIXED_NOREPLACE ||| VMA_UNMAPPED) ret])
        ∨ (∃ ret, 0 ≤ ret ∧
          w'.calls = w.calls ++
            [.bkeep_mmap_fixed
              (wadd brk_start
                (init_brk_offset P env.DkRandomBitsRead.2 brk_start (init_brk_max_size P env)))
              (init_brk_max_size P env) PROT_NONE (MAP_FIXED_NOREPLACE ||| VMA_UNMAPPED) (-EEXIST),
             .bkeep_mmap_any P.ENABLE_ASLR (init_brk_max_size P env) PROT_NONE VMA_UNMAPPED
              ret s])
        ∨ (∃ ret, 0 ≤ ret ∧
          w'.calls = w.calls ++
            [.bkeep_mmap_any P.ENABLE_ASLR (init_brk_max_size P env) PROT_NONE VMA_UNMAPPED
              ret s])) ∧
      (∀ b, backed w'.calls b = backed w.calls b) := by
  unfold init_brk_region at h
  simp only at h
  by_cases h1 : brk_start ≠ 0 ∧ IS_ALLOC_ALIGNED P brk_start = false
  · rw [if_pos h1] at h
    have h0 : (-EINVAL : Int) = 0 := congrArg Prod.fst h
    exact absurd h0 (by decide)
  rw [if_neg h1] at h
  by_cases h2 : IS_ALLOC_ALIGNED P (init_brk_max_size P env) = false
  · rw [if_pos h2] at h
    have h0 : (-EINVAL : Int) = 0 := congrArg Prod.fst h
    exact absurd h0 (by decide)
  rw [if_neg h2] at h
  generalize hpre : init_brk_region_preferred P env w brk_start (init_brk_max_size P env) = rp at h
  rcases rp with r | ⟨s1, w1⟩
  · exact absurd (congrArg Prod.fst h) (init_brk_region_preferred_error herrno hpre)
  simp only at h
  generalize hany : init_brk_region_any P env w1 s1 (init_brk_max_size P env) = ra at h
  rcases ra with r | ⟨s, w2⟩
  · exact absurd (congrArg Prod.fst h) (init_brk_region_any_error hany)
  simp only at h
  by_cases hl : env.create_lock = false
  · rw [if_pos hl] at h
    have h0 : (-ENOMEM : Int) = 0 := congrArg Prod.fst h
    exact absurd h0 (by decide)
  rw [if_neg hl] at h
  simp only [Prod.mk.injEq, true_and] at h
  subst h
  refine ⟨s, rfl, rfl, ?_⟩
  simp only
  rcases init_brk_region_preferred_ok hpre with ⟨rfl, rfl⟩ | ⟨rfl, rfl⟩ | ⟨hs1, hs1eq, ret, hret, rfl⟩
  · rcases init_brk_region_any_ok hany with ⟨hb, -, -⟩ | ⟨-, ret, hret, rfl⟩
    · exact absurd rfl hb
    · exact ⟨Or.inr (Or.inr ⟨ret, hret, rfl⟩), fun b => backed_log_bkeep_mmap_any _ _ _ _ _ _ _ _⟩
  · rcases init_brk_region_any_ok hany with ⟨hb, -, -⟩ | ⟨-, ret, hret, rfl⟩
    · exact absurd rfl hb
    · refine ⟨Or.inr (Or.inl ⟨ret, hret, ?_⟩), fun b => ?_⟩
      · simp only [World.log, List.append_assoc, List.singleton_append]
      · simp only [World.log]
        rw [backed_log_bkeep_mmap_any, backed_log_bkeep_mmap_fixed]
  · rcases init_brk_region_any_ok hany with ⟨-, rfl, rfl⟩ | ⟨hb, -⟩
    · exact ⟨Or.inl ⟨ret, hret, hs1, hs1eq, rfl⟩, fun b => backed_log_bkeep_mmap_fixed _ _ _ _ _ _ _⟩
    · exact absurd hb hs1

/-- Witness for C9: initialization at the preferred start `0x1000` with maximum heap size
`0x4000`; the random offset moves the start to `0x1457000`. -/
theorem init_brk_region_success_witness :
    init_brk_region pal4k (initEnv 0x4000) blank 0x1000 0x1800 = (0, blank_init) ∧
    ∃ s,
      blank_init.brk_region =
        { brk_start := s
          brk_current := s
          brk_end := (s + init_brk_max_size pal4k (initEnv 0x4000)) % WORD
          data_segment_size := ALLOC_ALIGN_UP pal4k 0x1800 } ∧
      blank_init.rlimit_data
        = (init_brk_max_size pal4k (initEnv 0x4000) + ALLOC_ALIGN_UP pal4k 0x1800) % WORD :=
  ⟨by decide,
   (init_brk_region_success pal4k (initEnv 0x4000) blank blank_init 0x1000 0x1800
      (fun _ he => he) (by decide)).imp fun _ hs => ⟨hs.1, hs.2.1⟩⟩

/-! ## C10 -/

/-- C10. `reset_brk` on an initialized region: when the Bookkeeper release succeeds, the
calls made are, in order, the release of the whole window `[start, end)`, the free of the
prefix at `start` of length `align_up(current) - start` (the values of the fields before the
reset), and the removal of the temporary VMA; `start`, `current` and `end` are left null and
`data_segment_size` 0. When the release fails, `reset_brk` does not return: it stops at
`BUG()`. -/
theorem reset_brk_releases_window (P : Pal) (hP : P.wf) (env : ResetEnv) (w : World)
    (hinit : w.brk_region.initialized P) :
    (¬ (env.bkeep_munmap w.brk_region.brk_start
          (w.brk_region.brk_end - w.brk_region.brk_start) false).1 < 0 →
      reset_brk P env w = .ok
        { brk_region :=
            { brk_start := 0, brk_current := 0, brk_end := 0, data_segment_size := 0 }
          rlimit_data := w.rlimit_data
          brk_lock := false
          calls := w.calls ++
            [.bkeep_munmap w.brk_region.brk_start
                (w.brk_region.brk_end - w.brk_region.brk_start) false
                (env.bkeep_munmap w.brk_region.brk_start
                  (w.brk_region.brk_end - w.brk_region.brk_start) false).1
                (env.bkeep_munmap w.brk_region.brk_start
                  (w.brk_region.brk_end - w.brk_region.brk_start) false).2,
             .DkVirtualMemoryFree w.brk_region.brk_start
                (ALLOC_ALIGN_UP P w.brk_region.brk_current - w.brk_region.brk_start),
             .bkeep_remove_tmp_vma
                (env.bkeep_munmap w.brk_region.brk_start
                  (w.brk_region.brk_end - w.brk_region.brk_start) false).2] }) ∧
    ((env.bkeep_munmap w.brk_region.brk_start
          (w.brk_region.brk_end - w.brk_region.brk_start) false).1 < 0 →
      reset_brk P env w = .error .bug) := by
  have ha := initialized_align hP hinit
  obtain ⟨hi1, hi2, hi3, -, -⟩ := hinit
  have hlen : wsub w.brk_region.brk_end w.brk_region.brk_start
      = w.brk_region.brk_end - w.brk_region.brk_start := wsub_of_le (by omega) hi3
  have hsz : wsub (ALLOC_ALIGN_UP P w.brk_region.brk_current) w.brk_region.brk_start
      = ALLOC_ALIGN_UP P w.brk_region.brk_current - w.brk_region.brk_start :=
    wsub_of_le (by omega) (by omega)
  constructor
  · intro h
    simp only [reset_brk, hlen, hsz, h, if_false, World.log, List.append_assoc,
      List.singleton_append, List.cons_append, List.nil_append]
  · intro h
    simp only [reset_brk, hlen, h, if_true]

/-- Witness for C10: the scenario, with a Bookkeeper that releases the window. -/
theorem reset_brk_releases_window_witness :
    pal4k.wf ∧ scenario.brk_region.initialized pal4k ∧
      reset_brk pal4k { bkeep_munmap := fun _ _ _ => (0, 0x77) } scenario = .ok
        { brk_region :=
            { brk_start := 0, brk_current := 0, brk_end := 0, data_segment_size := 0 }
          rlimit_data := 0x6000
          brk_lock := false
          calls :=
            [.bkeep_munmap 0x1000 0x4000 false 0 0x77,
             .DkVirtualMemoryFree 0x1000 0x3000,
             .bkeep_remove_tmp_vma 0x77] } :=
  ⟨by decide, by decide,
   (reset_brk_releases_window pal4k (by decide) { bkeep_munmap := fun _ _ _ => (0, 0x77) }
      scenario (by decide)).1 (by decide)⟩

/-! ## The failure paths of `shim_do_brk` -/

theorem brk_shrink_fail {P : Pal} {env : BrkEnv} {w : World} {brk : Nat}
    (h1 : ¬ brk < w.brk_region.brk_start)
    (h2 : brk ≤ ALLOC_ALIGN_UP P w.brk_region.brk_current)
    (h3 : wsub (ALLOC_ALIGN_UP P w.brk_region.brk_current) (ALLOC_ALIGN_UP P brk) ≠ 0)
    (h4 : env.bkeep_mmap_fixed (ALLOC_ALIGN_UP P brk)
      (wsub w.brk_region.brk_end (ALLOC_ALIGN_UP P brk)) PROT_NONE (MAP_FIXED ||| VMA_UNMAPPED) ≠ 0) :
    shim_do_brk P env w brk =
      .ok (w.brk_region.brk_current,
        w.log (.bkeep_mmap_fixed (ALLOC_ALIGN_UP P brk)
          (wsub w.brk_region.brk_end (ALLOC_ALIGN_UP P brk)) PROT_NONE (MAP_FIXED ||| VMA_UNMAPPED)
          (env.bkeep_mmap_fixed (ALLOC_ALIGN_UP P brk)
            (wsub w.brk_region.brk_end (ALLOC_ALIGN_UP P brk)) PROT_NONE
            (MAP_FIXED ||| VMA_UNMAPPED)))) := by
  simp [shim_do_brk, shim_do_brk_out, World.log, h1, h2, h3, h4]

theorem brk_grow_bkeep_fail {P : Pal} {env : BrkEnv} {w : World} {brk : Nat}
    (h1 : ¬ brk < w.brk_region.brk_start)
    (h2 : ¬ brk ≤ ALLOC_ALIGN_UP P w.brk_region.brk_current)
    (h3 : ¬ brk > w.brk_region.brk_end)
    (h4 : ¬ (w.rlimit_data < w.brk_region.data_segment_size
        ∨ wsub w.rlimit_data w.brk_region.data_segment_size
            < wsub (ALLOC_ALIGN_UP P brk) w.brk_region.brk_start))
    (h5 : wsub (ALLOC_ALIGN_UP P brk) (ALLOC_ALIGN_UP P w.brk_region.brk_current) ≠ 0)
    (h6 : env.bkeep_mmap_fixed (ALLOC_ALIGN_UP P w.brk_region.brk_current)
      (wsub (ALLOC_ALIGN_UP P brk) (ALLOC_ALIGN_UP P w.brk_region.brk_current))
      (PROT_READ ||| PROT_WRITE) (MAP_PRIVATE ||| MAP_ANONYMOUS ||| MAP_FIXED) < 0) :
    shim_do_brk P env w brk =
      .ok (w.brk_region.brk_current,
        w.log (.bkeep_mmap_fixed (ALLOC_ALIGN_UP P w.brk_region.brk_current)
          (wsub (ALLOC_ALIGN_UP P brk) (ALLOC_ALIGN_UP P w.brk_region.brk_current))
          (PROT_READ ||| PROT_WRITE) (MAP_PRIVATE ||| MAP_ANONYMOUS ||| MAP_FIXED)
          (env.bkeep_mmap_fixed (ALLOC_ALIGN_UP P w.brk_region.brk_current)
            (wsub (ALLOC_ALIGN_UP P brk) (ALLOC_ALIGN_UP P w.brk_region.brk_current))
            (PROT_READ ||| PROT_WRITE) (MAP_PRIVATE ||| MAP_ANONYMOUS ||| MAP_FIXED)))) := by
  simp only [shim_do_brk, shim_do_brk_out, World.log, h1, h2, h3, h4, h5, h6, if_true,
    if_false]

theorem brk_grow_rollback {P : Pal} {env : BrkEnv} {w : World} {brk : Nat}
    (h1 : ¬ brk < w.brk_region.brk_start)
    (h2 : ¬ brk ≤ ALLOC_ALIGN_UP P w.brk_region.brk_current)
    (h3 : ¬ brk > w.brk_region.brk_end)
    (h4 : ¬ (w.rlimit_data < w.brk_region.data_segment_size
        ∨ wsub w.rlimit_data w.brk_region.data_segment_size
            < wsub (ALLOC_ALIGN_UP P brk) w.brk_region.brk_start))
    (h5 : wsub (ALLOC_ALIGN_UP P brk) (ALLOC_ALIGN_UP P w.brk_region.brk_current) ≠ 0)
    (h6 : ¬ env.bkeep_mmap_fixed (ALLOC_ALIGN_UP P w.brk_region.brk_current)
      (wsub (ALLOC_ALIGN_UP P brk) (ALLOC_ALIGN_UP P w.brk_region.brk_current))
      (PROT_READ ||| PROT_WRITE) (MAP_PRIVATE ||| MAP_ANONYMOUS ||| MAP_FIXED) < 0)
    (h7 : env.DkVirtualMemoryAlloc (ALLOC_ALIGN_UP P w.brk_region.brk_current)
      (wsub (ALLOC_ALIGN_UP P brk) (ALLOC_ALIGN_UP P w.brk_region.brk_current))
      0 (PAL_PROT_READ ||| PAL_PROT_WRITE) = 0) :
    shim_do_brk P env w brk =
      if env.bkeep_mmap_fixed (ALLOC_ALIGN_UP P w.brk_region.brk_current)
          (wsub w.brk_region.brk_end (ALLOC_ALIGN_UP P w.brk_region.brk_current))
          PROT_NONE (MAP_FIXED ||| VMA_UNMAPPED) < 0 then
        .error .bug
      else
        .ok (w.brk_region.brk_current,
          { w with calls := w.calls ++ rollback_calls P env w brk }) := by
  simp only [shim_do_brk, shim_do_brk_out, World.log, rollback_calls, h1, h2, h3, h4, h5, h6,
    h7, if_true, if_false, List.append_assoc, List.singleton_append, List.cons_append,
    List.nil_append]

/-- In an initialized region, a request in the window that is above the aligned current
break rounds up, without wrapping, to an aligned address above it and inside the window. -/
theorem grow_align {P : Pal} (hP : P.wf) {r : BrkRegion} (h : r.initialized P) {brk : Nat}
    (hb1 : ALLOC_ALIGN_UP P r.brk_current < brk) (hb2 : brk ≤ r.brk_end) :
    brk ≤ ALLOC_ALIGN_UP P brk ∧ ALLOC_ALIGN_UP P brk ≤ r.brk_end ∧
      ALLOC_ALIGN_UP P r.brk_current < ALLOC_ALIGN_UP P brk ∧
      wsub (ALLOC_ALIGN_UP P brk) (ALLOC_ALIGN_UP P r.brk_current)
        = ALLOC_ALIGN_UP P brk - ALLOC_ALIGN_UP P r.brk_current ∧
      wsub (ALLOC_ALIGN_UP P brk) r.brk_start = ALLOC_ALIGN_UP P brk - r.brk_start ∧
      wsub r.brk_end (ALLOC_ALIGN_UP P r.brk_current)
        = r.brk_end - ALLOC_ALIGN_UP P r.brk_current := by
  have ha := initialized_align hP h
  obtain ⟨hi1, hi2, hi3, -, -⟩ := h
  obtain ⟨hx1, hx2, -, -⟩ := align_up_spec hP hb2 hi3 ha.2.2.2.2.2
  exact ⟨hx1, hx2, by omega, wsub_of_le (by omega) (by omega),
    wsub_of_le (by omega) (by omega), wsub_of_le (by omega) hi3⟩

/-- In an initialized region, a request between `start` and the aligned current break
rounds up, without wrapping, to an aligned address not above the aligned current break. -/
theorem shrink_align {P : Pal} (hP : P.wf) {r : BrkRegion} (h : r.initialized P) {brk : Nat}
    (hb2 : brk ≤ ALLOC_ALIGN_UP P r.brk_current) :
    brk ≤ ALLOC_ALIGN_UP P brk ∧ ALLOC_ALIGN_UP P brk ≤ ALLOC_ALIGN_UP P r.brk_current ∧
      ALLOC_ALIGN_UP P brk ≤ r.brk_end ∧
      wsub (ALLOC_ALIGN_UP P r.brk_current) (ALLOC_ALIGN_UP P brk)
        = ALLOC_ALIGN_UP P r.brk_current - ALLOC_ALIGN_UP P brk ∧
      wsub r.brk_end (ALLOC_ALIGN_UP P brk) = r.brk_end - ALLOC_ALIGN_UP P brk := by
  have ha := initialized_align hP h
  obtain ⟨hi1, hi2, hi3, -, -⟩ := h
  obtain ⟨hx1, hx2, -, -⟩ := align_up_spec hP hb2 (by omega) ha.2.2.1
  exact ⟨hx1, hx2, by omega, wsub_of_le hx2 (by omega), wsub_of_le (by omega) hi3⟩

/-! ## C11 -/

/-- C11. Grow: in an initialized state, for a request with
`align_up(current) < requested ≤ end` that passes the resource-limit check, when the
Bookkeeper mark and the Allocator commit both succeed, `shim_do_brk` makes exactly two
calls: the Bookkeeper mark of `[align_up(current), align_up(requested))` read/write,
private-anonymous (fixed), and the Allocator commit of the same range read/write; it stores
the exact requested value as the current break and returns it. -/
theorem shim_do_brk_grow_commits (P : Pal) (hP : P.wf) (env : BrkEnv) (w : World)
    (hinit : w.brk_region.initialized P) (brk : Nat)
    (hb1 : ALLOC_ALIGN_UP P w.brk_region.brk_current < brk) (hb2 : brk ≤ w.brk_region.brk_end)
    (hlim : ¬ (w.rlimit_data < w.brk_region.data_segment_size
        ∨ wsub w.rlimit_data w.brk_region.data_segment_size
            < ALLOC_ALIGN_UP P brk - w.brk_region.brk_start))
    (hbk : ¬ env.bkeep_mmap_fixed (ALLOC_ALIGN_UP P w.brk_region.brk_current)
      (ALLOC_ALIGN_UP P brk - ALLOC_ALIGN_UP P w.brk_region.brk_current)
      (PROT_READ ||| PROT_WRITE) (MAP_PRIVATE ||| MAP_ANONYMOUS ||| MAP_FIXED) < 0)
    (halloc : env.DkVirtualMemoryAlloc (ALLOC_ALIGN_UP P w.brk_region.brk_current)
      (ALLOC_ALIGN_UP P brk - ALLOC_ALIGN_UP P w.brk_region.brk_current)
      0 (PAL_PROT_READ ||| PAL_PROT_WRITE) ≠ 0) :
    ALLOC_ALIGN_UP P w.brk_region.brk_current < ALLOC_ALIGN_UP P brk ∧
    ALLOC_ALIGN_UP P brk ≤ w.brk_region.brk_end ∧
    shim_do_brk P env w brk =
      .ok (brk,
        { w with
          brk_region := { w.brk_region with brk_current := brk }
          calls := w.calls ++
            [.bkeep_mmap_fixed (ALLOC_ALIGN_UP P w.brk_region.brk_current)
                (ALLOC_ALIGN_UP P brk - ALLOC_ALIGN_UP P w.brk_region.brk_current)
                (PROT_READ ||| PROT_WRITE) (MAP_PRIVATE ||| MAP_ANONYMOUS ||| MAP_FIXED)
                (env.bkeep_mmap_fixed (ALLOC_ALIGN_UP P w.brk_region.brk_current)
                  (ALLOC_ALIGN_UP P brk - ALLOC_ALIGN_UP P w.brk_region.brk_current)
                  (PROT_READ ||| PROT_WRITE) (MAP_PRIVATE ||| MAP_ANONYMOUS ||| MAP_FIXED)),
             .DkVirtualMemoryAlloc (ALLOC_ALIGN_UP P w.brk_region.brk_current)
                (ALLOC_ALIGN_UP P brk - ALLOC_ALIGN_UP P w.brk_region.brk_current)
                0 (PAL_PROT_READ ||| PAL_PROT_WRITE)
                (env.DkVirtualMemoryAlloc (ALLOC_ALIGN_UP P w.brk_region.brk_current)
                  (ALLOC_ALIGN_UP P brk - ALLOC_ALIGN_UP P w.brk_region.brk_current)
                  0 (PAL_PROT_READ ||| PAL_PROT_WRITE))] }) := by
  obtain ⟨hg1, hg2, hg3, hg4, hg5, hg6⟩ := grow_align hP hinit hb1 hb2
  have ha := initialized_align hP hinit
  have hi1 := hinit.1
  refine ⟨hg3, hg2, ?_⟩
  have := @brk_grow P env w brk (by omega) (by omega) (by omega) (by rw [hg5]; exact hlim)
    (by rw [hg4]; omega) (by rw [hg4]; exact hbk) (by rw [hg4]; exact halloc)
  rw [hg4] at this
  exact this

/-- Witness for C11: window `[0x1000, 0x5000)`, granularity `0x1000`, current break
`0x1000`: `shim_do_brk(0x3500)` marks and commits `[0x1000, 0x4000)` and returns `0x3500`. -/
theorem shim_do_brk_grow_commits_witness :
    pal4k.wf ∧ scenario_fresh.brk_region.initialized pal4k ∧
    shim_do_brk pal4k okEnv scenario_fresh 0x3500 =
      .ok (0x3500,
        { scenario_fresh with
          brk_region := { scenario_fresh.brk_region with brk_current := 0x3500 }
          calls :=
            [.bkeep_mmap_fixed 0x1000 0x3000 (PROT_READ ||| PROT_WRITE)
                (MAP_PRIVATE ||| MAP_ANONYMOUS ||| MAP_FIXED) 0,
             .DkVirtualMemoryAlloc 0x1000 0x3000 0 (PAL_PROT_READ ||| PAL_PROT_WRITE) 0x1000] }) :=
  ⟨by decide, by decide,
   (shim_do_brk_grow_commits pal4k (by decide) okEnv scenario_fresh (by decide) 0x3500
      (by decide) (by decide) (by decide) (by decide) (by decide)).2.2⟩

/-! ## C12 -/

/-- C12. Shrink: in an initialized state, for a request with
`start ≤ requested ≤ align_up(current)` and `align_up(requested) < align_up(current)`, when
the Bookkeeper re-mark succeeds, `shim_do_brk` makes exactly two calls: the Bookkeeper
re-mark of `[align_up(requested), end)` as `PROT_NONE`, unmapped, and the Allocator decommit
of `[align_up(requested), align_up(current))`; it stores the exact requested value as the
current break and returns it. This holds for every value of `RLIMIT_DATA`, which the call
leaves as it is. -/
theorem shim_do_brk_shrink_decommits (P : Pal) (hP : P.wf) (env : BrkEnv) (w : World)
    (hinit : w.brk_region.initialized P) (brk : Nat)
    (hb1 : w.brk_region.brk_start ≤ brk)
    (hb2 : brk ≤ ALLOC_ALIGN_UP P w.brk_region.brk_current)
    (hb3 : ALLOC_ALIGN_UP P brk < ALLOC_ALIGN_UP P w.brk_region.brk_current)
    (hbk : env.bkeep_mmap_fixed (ALLOC_ALIGN_UP P brk)
      (w.brk_region.brk_end - ALLOC_ALIGN_UP P brk) PROT_NONE (MAP_FIXED ||| VMA_UNMAPPED) = 0) :
    ∀ rlim : Nat,
      shim_do_brk P env { w with rlimit_data := rlim } brk =
        .ok (brk,
          { w with
            rlimit_data := rlim
            brk_region := { w.brk_region with brk_current := brk }
            calls := w.calls ++
              [.bkeep_mmap_fixed (ALLOC_ALIGN_UP P brk)
                  (w.brk_region.brk_end - ALLOC_ALIGN_UP P brk) PROT_NONE
                  (MAP_FIXED ||| VMA_UNMAPPED) 0,
               .DkVirtualMemoryFree (ALLOC_ALIGN_UP P brk)
                  (ALLOC_ALIGN_UP P w.brk_region.brk_current - ALLOC_ALIGN_UP P brk)] }) := by
  intro rlim
  obtain ⟨hs1, hs2, hs3, hs4, hs5⟩ := shrink_align hP hinit hb2
  have := @brk_shrink P env { w with rlimit_data := rlim } brk (by simp only; omega) hb2
    (by simp only [hs4]; omega) (by simp only [hs5]; exact hbk)
  simp only [hs4, hs5] at this
  exact this

/-- Witness for C12: window `[0x1000, 0x5000)`, current break `0x3500`, with `RLIMIT_DATA`
lowered to 0: `shim_do_brk(0x1800)` re-marks `[0x2000, 0x5000)`, decommits
`[0x2000, 0x4000)` and returns `0x1800`. -/
theorem shim_do_brk_shrink_decommits_witness :
    pal4k.wf ∧ scenario.brk_region.initialized pal4k ∧
    shim_do_brk pal4k okEnv { scenario with rlimit_data := 0 } 0x1800 =
      .ok (0x1800,
        { scenario with
          rlimit_data := 0
          brk_region := { scenario.brk_region with brk_current := 0x1800 }
          calls :=
            [.bkeep_mmap_fixed 0x2000 0x3000 PROT_NONE (MAP_FIXED ||| VMA_UNMAPPED) 0,
             .DkVirtualMemoryFree 0x2000 0x2000] }) :=
  ⟨by decide, by decide,
   shim_do_brk_shrink_decommits pal4k (by decide) okEnv scenario (by decide) 0x1800
     (by decide) (by decide) (by decide) (by decide) 0⟩

theorem ledger_snoc (cs : List Call) (c : Call) (l : Nat → Mark) :
    ledger (cs ++ [c]) l = ledger_step (ledger cs l) c := by
  simp [ledger, List.foldl_append]

theorem backed_snoc (cs : List Call) (c : Call) (b : Nat → Bool) :
    backed (cs ++ [c]) b = backed_step (backed cs b) c := by
  simp [backed, List.foldl_append]

/-! ## C13 -/

/-- C13. Grow rollback: in an initialized state, when a grow request
(`align_up(current) < requested ≤ end`) has passed the resource-limit check, the Bookkeeper
mark of `[align_up(current), align_up(requested))` has not failed and the Allocator commit
fails: if the rollback re-mark of the whole tail `[align_up(current), end)` fails,
`shim_do_brk` does not return (it stops at `BUG()`); otherwise it returns the old current
break, leaves the region as it was, and has made exactly the three calls mark, failed
commit, re-mark of `[align_up(current), end)` as `PROT_NONE`, unmapped. When that re-mark
succeeds and the tail was reserved in the ledger before the call, the ledger is, at every
address, what it was before the call, and so is the set of backed addresses. -/
theorem shim_do_brk_grow_rollback (P : Pal) (hP : P.wf) (env : BrkEnv) (w : World)
    (hinit : w.brk_region.initialized P) (brk : Nat)
    (hb1 : ALLOC_ALIGN_UP P w.brk_region.brk_current < brk) (hb2 : brk ≤ w.brk_region.brk_end)
    (hlim : ¬ (w.rlimit_data < w.brk_region.data_segment_size
        ∨ wsub w.rlimit_data w.brk_region.data_segment_size
            < ALLOC_ALIGN_UP P brk - w.brk_region.brk_start))
    (hbk : ¬ env.bkeep_mmap_fixed (ALLOC_ALIGN_UP P w.brk_region.brk_current)
      (ALLOC_ALIGN_UP P brk - ALLOC_ALIGN_UP P w.brk_region.brk_current)
      (PROT_READ ||| PROT_WRITE) (MAP_PRIVATE ||| MAP_ANONYMOUS ||| MAP_FIXED) < 0)
    (halloc : env.DkVirtualMemoryAlloc (ALLOC_ALIGN_UP P w.brk_region.brk_current)
      (ALLOC_ALIGN_UP P brk - ALLOC_ALIGN_UP P w.brk_region.brk_current)
      0 (PAL_PROT_READ ||| PAL_PROT_WRITE) = 0) :
    (env.bkeep_mmap_fixed (ALLOC_ALIGN_UP P w.brk_region.brk_current)
        (w.brk_region.brk_end - ALLOC_ALIGN_UP P w.brk_region.brk_current)
        PROT_NONE (MAP_FIXED ||| VMA_UNMAPPED) < 0 →
      shim_do_brk P env w brk = .error .bug) ∧
    (¬ env.bkeep_mmap_fixed (ALLOC_ALIGN_UP P w.brk_region.brk_current)
        (w.brk_region.brk_end - ALLOC_ALIGN_UP P w.brk_region.brk_current)
        PROT_NONE (MAP_FIXED ||| VMA_UNMAPPED) < 0 →
      shim_do_brk P env w brk =
        .ok (w.brk_region.brk_current,
          { w with calls := w.calls ++
            [.bkeep_mmap_fixed (ALLOC_ALIGN_UP P w.brk_region.brk_current)
                (ALLOC_ALIGN_UP P brk - ALLOC_ALIGN_UP P w.brk_region.brk_current)
                (PROT_READ ||| PROT_WRITE) (MAP_PRIVATE ||| MAP_ANONYMOUS ||| MAP_FIXED)
                (env.bkeep_mmap_fixed (ALLOC_ALIGN_UP P w.brk_region.brk_current)
                  (ALLOC_ALIGN_UP P brk - ALLOC_ALIGN_UP P w.brk_region.brk_current)
                  (PROT_READ ||| PROT_WRITE) (MAP_PRIVATE ||| MAP_ANONYMOUS ||| MAP_FIXED)),
             .DkVirtualMemoryAlloc (ALLOC_ALIGN_UP P w.brk_region.brk_current)
                (ALLOC_ALIGN_UP P brk - ALLOC_ALIGN_UP P w.brk_region.brk_current)
                0 (PAL_PROT_READ ||| PAL_PROT_WRITE) 0,
             .bkeep_mmap_fixed (ALLOC_ALIGN_UP P w.brk_region.brk_current)
                (w.brk_region.brk_end - ALLOC_ALIGN_UP P w.brk_region.brk_current)
                PROT_NONE (MAP_FIXED ||| VMA_UNMAPPED)
                (env.bkeep_mmap_fixed (ALLOC_ALIGN_UP P w.brk_region.brk_current)
                  (w.brk_region.brk_end - ALLOC_ALIGN_UP P w.brk_region.brk_current)
                  PROT_NONE (MAP_FIXED ||| VMA_UNMAPPED))] })) ∧
    (env.bkeep_mmap_fixed (ALLOC_ALIGN_UP P w.brk_region.brk_current)
        (w.brk_region.brk_end - ALLOC_ALIGN_UP P w.brk_region.brk_current)
        PROT_NONE (MAP_FIXED ||| VMA_UNMAPPED) = 0 →
      ∀ (l0 : Nat → Mark) (b0 : Nat → Bool),
        (∀ a, ALLOC_ALIGN_UP P w.brk_region.brk_current ≤ a → a < w.brk_region.brk_end →
          ledger w.calls l0 a = Mark.reserved) →
        ∀ v w', shim_do_brk P env w brk = .ok (v, w') →
          v = w.brk_region.brk_current ∧ w'.brk_region = w.brk_region ∧
          ∀ a, ledger w'.calls l0 a = ledger w.calls l0 a ∧
            backed w'.calls b0 a = backed w.calls b0 a) := by
  obtain ⟨hg1, hg2, hg3, hg4, hg5, hg6⟩ := grow_align hP hinit hb1 hb2
  have ha := initialized_align hP hinit
  have hi1 := hinit.1
  have hres := @brk_grow_rollback P env w brk (by omega) (by omega) (by omega)
    (by rw [hg5]; exact hlim) (by rw [hg4]; omega) (by rw [hg4]; exact hbk)
    (by rw [hg4]; exact halloc)
  simp only [rollback_calls, hg4, hg6] at hres
  refine ⟨fun hneg => ?_, fun hok => ?_, fun hz l0 b0 htail v w' hvw => ?_⟩
  · rw [hres, if_pos hneg]
  · rw [hres, if_neg hok]
  · rw [hres, if_neg (by omega)] at hvw
    simp only [Except.ok.injEq, Prod.mk.injEq] at hvw
    obtain ⟨rfl, rfl⟩ := hvw
    refine ⟨rfl, rfl, fun a => ⟨?_, ?_⟩⟩
    · simp only [ledger_append]
      simp only [ledger, List.foldl, ledger_step, hz, if_true, unmapped_flags, committed_flags,
        if_false]
      by_cases hin : ALLOC_ALIGN_UP P w.brk_region.brk_current ≤ a ∧
          a < ALLOC_ALIGN_UP P w.brk_region.brk_current +
            (w.brk_region.brk_end - ALLOC_ALIGN_UP P w.brk_region.brk_current)
      · rw [if_pos hin]
        exact (htail a hin.1 (by omega)).symm
      · rw [if_neg hin]
        split_ifs with h0
        · have hout : ¬ (ALLOC_ALIGN_UP P w.brk_region.brk_current ≤ a ∧
              a < ALLOC_ALIGN_UP P w.brk_region.brk_current +
                (ALLOC_ALIGN_UP P brk - ALLOC_ALIGN_UP P w.brk_region.brk_current)) := by
            omega
          simp only [hout, if_false]
        · rfl
    · simp only [backed_append]
      simp only [backed, List.foldl, backed_step, if_true]

/-- Witness for C13: in the window `[0x1000, 0x5000)` with current break `0x1000`, the
request `0x3500` with a failing Allocator: the mark of `[0x1000, 0x4000)`, the failed commit
and the re-mark of `[0x1000, 0x5000)`, returning the old break `0x1000`; and `BUG()` when the
re-mark is refused. -/
theorem shim_do_brk_grow_rollback_witness :
    pal4k.wf ∧ scenario_fresh.brk_region.initialized pal4k ∧
    shim_do_brk pal4k allocFailEnv scenario_fresh 0x3500 =
      .ok (0x1000,
        { scenario_fresh with calls :=
          [.bkeep_mmap_fixed 0x1000 0x3000 (PROT_READ ||| PROT_WRITE)
              (MAP_PRIVATE ||| MAP_ANONYMOUS ||| MAP_FIXED) 0,
           .DkVirtualMemoryAlloc 0x1000 0x3000 0 (PAL_PROT_READ ||| PAL_PROT_WRITE) 0,
           .bkeep_mmap_fixed 0x1000 0x4000 PROT_NONE (MAP_FIXED ||| VMA_UNMAPPED) 0] }) ∧
    shim_do_brk pal4k rollbackFailEnv scenario_fresh 0x3500 = .error .bug :=
  ⟨by decide, by decide,
   (shim_do_brk_grow_rollback pal4k (by decide) allocFailEnv scenario_fresh (by decide) 0x3500
      (by decide) (by decide) (by decide) (by decide) (by decide)).2.1 (by decide),
   (shim_do_brk_grow_rollback pal4k (by decide) rollbackFailEnv scenario_fresh (by decide) 0x3500
      (by decide) (by decide) (by decide) (by decide) (by decide)).1 (by decide)⟩

/-! ## C14 -/

/-- C14, as stated, fails: in the scenario (window `[0x1000, 0x5000)`, current break
`0x3500`) the request `0x1800` is a shrink that frees `[0x2000, 0x4000)`; when the Bookkeeper
refuses the re-mark of `[0x2000, 0x5000)`, `shim_do_brk` does not stop the process: it
returns the old break `0x3500` to its caller, having made that one Bookkeeper call. -/
theorem shim_do_brk_shrink_failure_counterexample :
    pal4k.wf ∧ scenario.brk_region.initialized pal4k ∧
    scenario.brk_region.brk_start ≤ 0x1800 ∧
    0x1800 ≤ ALLOC_ALIGN_UP pal4k scenario.brk_region.brk_current ∧
    wsub (ALLOC_ALIGN_UP pal4k scenario.brk_region.brk_current) (ALLOC_ALIGN_UP pal4k 0x1800)
      = 0x2000 ∧
    failEnv.bkeep_mmap_fixed 0x2000 0x3000 PROT_NONE (MAP_FIXED ||| VMA_UNMAPPED) = -ENOMEM ∧
    shim_do_brk pal4k failEnv scenario 0x1800 =
      .ok (0x3500,
        scenario.log
          (.bkeep_mmap_fixed 0x2000 0x3000 PROT_NONE (MAP_FIXED ||| VMA_UNMAPPED) (-ENOMEM))) := by
  decide

/-- C14, amended. During a shrink with `freed > 0` (an initialized state,
`start ≤ requested ≤ align_up(current)`, `align_up(requested) < align_up(current)`), a
failure of the Bookkeeper re-mark of `[align_up(requested), end)` (a non-zero return) is a
silent rejection: `shim_do_brk` returns the old current break, leaves the region as it was
and makes no Allocator call. Whatever the collaborators answer, a request on the shrink
path returns a value to its caller. -/
theorem shim_do_brk_shrink_failure_rejects (P : Pal) (hP : P.wf) (env : BrkEnv) (w : World)
    (hinit : w.brk_region.initialized P) (brk : Nat)
    (hb1 : w.brk_region.brk_start ≤ brk)
    (hb2 : brk ≤ ALLOC_ALIGN_UP P w.brk_region.brk_current)
    (hb3 : ALLOC_ALIGN_UP P brk < ALLOC_ALIGN_UP P w.brk_region.brk_current) :
    (env.bkeep_mmap_fixed (ALLOC_ALIGN_UP P brk)
        (w.brk_region.brk_end - ALLOC_ALIGN_UP P brk) PROT_NONE (MAP_FIXED ||| VMA_UNMAPPED) ≠ 0 →
      shim_do_brk P env w brk =
        .ok (w.brk_region.brk_current,
          { w with calls := w.calls ++
            [.bkeep_mmap_fixed (ALLOC_ALIGN_UP P brk)
                (w.brk_region.brk_end - ALLOC_ALIGN_UP P brk) PROT_NONE
                (MAP_FIXED ||| VMA_UNMAPPED)
                (env.bkeep_mmap_fixed (ALLOC_ALIGN_UP P brk)
                  (w.brk_region.brk_end - ALLOC_ALIGN_UP P brk) PROT_NONE
                  (MAP_FIXED ||| VMA_UNMAPPED))] })) ∧
    (∃ v w', shim_do_brk P env w brk = .ok (v, w')) := by
  obtain ⟨hs1, hs2, hs3, hs4, hs5⟩ := shrink_align hP hinit hb2
  have hfail : env.bkeep_mmap_fixed (ALLOC_ALIGN_UP P brk)
        (w.brk_region.brk_end - ALLOC_ALIGN_UP P brk) PROT_NONE (MAP_FIXED ||| VMA_UNMAPPED) ≠ 0 →
      shim_do_brk P env w brk =
        .ok (w.brk_region.brk_current,
          { w with calls := w.calls ++
            [.bkeep_mmap_fixed (ALLOC_ALIGN_UP P brk)
                (w.brk_region.brk_end - ALLOC_ALIGN_UP P brk) PROT_NONE
                (MAP_FIXED ||| VMA_UNMAPPED)
                (env.bkeep_mmap_fixed (ALLOC_ALIGN_UP P brk)
                  (w.brk_region.brk_end - ALLOC_ALIGN_UP P brk) PROT_NONE
                  (MAP_FIXED ||| VMA_UNMAPPED))] }) := by
    intro hne
    have := @brk_shrink_fail P env w brk (by omega) hb2 (by rw [hs4]; omega)
      (by rw [hs5]; exact hne)
    simp only [hs5, World.log] at this
    exact this
  refine ⟨hfail, ?_⟩
  by_cases hz : env.bkeep_mmap_fixed (ALLOC_ALIGN_UP P brk)
      (w.brk_region.brk_end - ALLOC_ALIGN_UP P brk) PROT_NONE (MAP_FIXED ||| VMA_UNMAPPED) = 0
  · exact ⟨_, _, @brk_shrink P env w brk (by omega) hb2 (by rw [hs4]; omega)
      (by rw [hs5]; exact hz)⟩
  · exact ⟨_, _, hfail hz⟩

/-- Witness for C14 (amended): the scenario, the request `0x1800`, a refusing Bookkeeper. -/
theorem shim_do_brk_shrink_failure_rejects_witness :
    pal4k.wf ∧ scenario.brk_region.initialized pal4k ∧
    shim_do_brk pal4k failEnv scenario 0x1800 =
      .ok (0x3500,
        { scenario with calls :=
          [.bkeep_mmap_fixed 0x2000 0x3000 PROT_NONE (MAP_FIXED ||| VMA_UNMAPPED) (-ENOMEM)] }) :=
  ⟨by decide, by decide,
   (shim_do_brk_shrink_failure_rejects pal4k (by decide) failEnv scenario (by decide) 0x1800
      (by decide) (by decide) (by decide)).1 (by decide)⟩

/-! ## C15 -/

/-- C15. Window invariant: if the region is initialized (`start ≤ current ≤ end`, `start`
and `end` allocation-aligned) before a call of `shim_do_brk`, then for every requested
address and every outcome of the collaborators with which the call returns, the region is
initialized after it, and `start`, `end` and `data_segment_size` (and the resource limit)
are what they were: only `current` may change. -/
theorem shim_do_brk_preserves_window (P : Pal) (hP : P.wf) (env : BrkEnv) (w : World)
    (hinit : w.brk_region.initialized P) (brk v : Nat) (w' : World)
    (h : shim_do_brk P env w brk = .ok (v, w')) :
    w'.brk_region.initialized P ∧
    w'.brk_region.brk_start = w.brk_region.brk_start ∧
    w'.brk_region.brk_end = w.brk_region.brk_end ∧
    w'.brk_region.data_segment_size = w.brk_region.data_segment_size ∧
    w'.rlimit_data = w.rlimit_data := by
  have ha := initialized_align hP hinit
  obtain ⟨hi1, hi2, hi3, hi4, hi5⟩ := hinit
  unfold shim_do_brk at h
  simp only [shim_do_brk_out, World.log] at h
  split_ifs at h <;> simp only [Except.ok.injEq, Prod.mk.injEq] at h <;>
    obtain ⟨rfl, rfl⟩ := h <;>
    refine ⟨⟨?_, ?_, hi3, hi4, hi5⟩, rfl, rfl, rfl, rfl⟩ <;> (try simp only) <;> omega

/-- Witness for C15: the grow request `0x4800` in the scenario. -/
theorem shim_do_brk_preserves_window_witness :
    pal4k.wf ∧ scenario.brk_region.initialized pal4k ∧
    ∃ w', shim_do_brk pal4k okEnv scenario 0x4800 = .ok (0x4800, w') ∧
      w'.brk_region.initialized pal4k ∧
      w'.brk_region.brk_start = scenario.brk_region.brk_start ∧
      w'.brk_region.brk_end = scenario.brk_region.brk_end ∧
      w'.brk_region.data_segment_size = scenario.brk_region.data_segment_size :=
  ⟨by decide, by decide,
   ⟨{ scenario with
        brk_region := { scenario.brk_region with brk_current := 0x4800 }
        calls :=
          [.bkeep_mmap_fixed 0x4000 0x1000 (PROT_READ ||| PROT_WRITE)
              (MAP_PRIVATE ||| MAP_ANONYMOUS ||| MAP_FIXED) 0,
           .DkVirtualMemoryAlloc 0x4000 0x1000 0 (PAL_PROT_READ ||| PAL_PROT_WRITE) 0x4000] },
    by decide,
    ((shim_do_brk_preserves_window pal4k (by decide) okEnv scenario (by decide) 0x4800 0x4800 _
        (by decide)).imp_right fun h => ⟨h.1, h.2.1, h.2.2.1⟩)⟩⟩

/-- The round-up of a machine word either does not wrap, and is then not below the word, or
wraps, and is then the null address. -/
theorem align_up_ge_or_zero {P : Pal} (hP : P.wf) {x : Nat} (hx : x < WORD) :
    x ≤ ALLOC_ALIGN_UP P x ∨ ALLOC_ALIGN_UP P x = 0 := by
  obtain ⟨hg, hdvd, -, -⟩ := hP
  have hgle : P.alloc_align ≤ WORD := Nat.le_of_dvd (by decide) hdvd
  unfold ALLOC_ALIGN_UP ALLOC_ALIGN_DOWN wadd
  by_cases hwrap : x + (P.alloc_align - 1) < WORD
  · left
    rw [Nat.mod_eq_of_lt hwrap]
    have := Nat.mod_lt (x + (P.alloc_align - 1)) hg
    omega
  · right
    have h1 : (x + (P.alloc_align - 1)) % WORD = x + (P.alloc_align - 1) - WORD := by
      rw [Nat.mod_eq_sub_mod (by omega)]
      exact Nat.mod_eq_of_lt (by omega)
    rw [h1, Nat.mod_eq_of_lt (by omega)]
    exact Nat.sub_self _

/-! ## C18 -/

/-- C18. Same-granule requests touch no collaborator. In an initialized state (the window
not at the null address, which is the value of `brk_start` when there is no region), for
every requested machine word with `requested ≥ start` and
`align_up(requested) = align_up(current)`, `shim_do_brk` makes no Bookkeeper and no
Allocator call, stores the requested value as the current break and returns it; the same
holds, whatever `start` is, for a request with `start ≤ requested ≤ end`. For every request
whatsoever with `align_up(requested) = align_up(current)` the call returns and makes no
Bookkeeper and no Allocator call (it either stores the request or rejects it): only calls
in which `align_up(requested)` differs from `align_up(current)` reach a collaborator. -/
theorem shim_do_brk_same_granule (P : Pal) (hP : P.wf) (env : BrkEnv) (w : World)
    (hinit : w.brk_region.initialized P) (brk : Nat)
    (heq : ALLOC_ALIGN_UP P brk = ALLOC_ALIGN_UP P w.brk_region.brk_current) :
    (w.brk_region.brk_start ≠ 0 → brk < WORD → w.brk_region.brk_start ≤ brk →
      shim_do_brk P env w brk =
        .ok (brk, { w with brk_region := { w.brk_region with brk_current := brk } })) ∧
    (w.brk_region.brk_start ≤ brk → brk ≤ w.brk_region.brk_end →
      shim_do_brk P env w brk =
        .ok (brk, { w with brk_region := { w.brk_region with brk_current := brk } })) ∧
    (shim_do_brk P env w brk = .ok (w.brk_region.brk_current, w) ∨
      shim_do_brk P env w brk =
        .ok (brk, { w with brk_region := { w.brk_region with brk_current := brk } })) ∧
    (∀ v w', shim_do_brk P env w brk = .ok (v, w') → w'.calls = w.calls) := by
  have ha := initialized_align hP hinit
  have hi1 := hinit.1
  have hi3 := hinit.2.2.1
  have hw : ALLOC_ALIGN_UP P w.brk_region.brk_current < WORD := by omega
  have hsz : wsub (ALLOC_ALIGN_UP P w.brk_region.brk_current) (ALLOC_ALIGN_UP P brk) = 0 := by
    rw [heq]; exact wsub_self_word hw
  have hdich : shim_do_brk P env w brk = .ok (w.brk_region.brk_current, w) ∨
      shim_do_brk P env w brk =
        .ok (brk, { w with brk_region := { w.brk_region with brk_current := brk } }) := by
    by_cases h1 : brk < w.brk_region.brk_start
    · exact Or.inl (brk_below h1)
    by_cases h2 : brk ≤ ALLOC_ALIGN_UP P w.brk_region.brk_current
    · exact Or.inr (brk_same_granule h1 h2 hsz)
    by_cases h3 : brk > w.brk_region.brk_end
    · exact Or.inl (brk_above h1 h2 h3)
    · have hg := @grow_align P hP w.brk_region hinit brk (by omega) (by omega)
      omega
  refine ⟨fun hnull hword hs => ?_, fun hs he => ?_, hdich, fun v w' hvw => ?_⟩
  · rcases align_up_ge_or_zero hP hword with hge | hzero
    · exact brk_same_granule (by omega) (by omega) hsz
    · omega
  · obtain ⟨hx1, -, -, -⟩ := align_up_spec hP he hi3 ha.2.2.2.2.2
    exact brk_same_granule (by omega) (by omega) hsz
  · rcases hdich with h | h <;> rw [h] at hvw <;>
      simp only [Except.ok.injEq, Prod.mk.injEq] at hvw <;> obtain ⟨-, rfl⟩ := hvw <;> rfl

/-- Witness for C18: in the scenario (window at `0x1000`, current break `0x3500`), the
request `0x3f00` lies in the same granule: no call is made even with a refusing Bookkeeper. -/
theorem shim_do_brk_same_granule_witness :
    pal4k.wf ∧ scenario.brk_region.initialized pal4k ∧
    shim_do_brk pal4k failEnv scenario 0x3f00 =
      .ok (0x3f00,
        { scenario with brk_region := { scenario.brk_region with brk_current := 0x3f00 } }) :=
  ⟨by decide, by decide,
   (shim_do_brk_same_granule pal4k (by decide) failEnv scenario (by decide) 0x3f00
      (by decide)).1 (by decide) (by decide) (by decide)⟩

/-! ## C19 -/

/-- C19. Arithmetic safety of `shim_do_brk` in an initialized state. The round-up of the
current break does not wrap. On the shrink path (`start ≤ brk ≤ align_up(current)`) the
round-up of the request does not wrap, `align_up(brk) ≤ align_up(current)` and
`align_up(brk) ≤ end`, so both machine subtractions are the exact differences. On the grow
path (`align_up(current) < brk ≤ end`) the round-up of the request does not wrap,
`start ≤ align_up(current) < align_up(brk) ≤ end`, the three machine subtractions of sizes
are the exact differences, the subtraction of `data_segment_size` from the limit is exact
whenever it is evaluated (limit a machine word, not below `data_segment_size`), and the
growth size is not zero. Consequently `assert(size)` never fails. -/
theorem shim_do_brk_arithmetic_safe (P : Pal) (hP : P.wf) (env : BrkEnv) (w : World)
    (hinit : w.brk_region.initialized P) (brk : Nat) :
    w.brk_region.brk_current + (P.alloc_align - 1) < WORD ∧
    (¬ brk < w.brk_region.brk_start → brk ≤ ALLOC_ALIGN_UP P w.brk_region.brk_current →
      brk + (P.alloc_align - 1) < WORD ∧
      ALLOC_ALIGN_UP P brk ≤ ALLOC_ALIGN_UP P w.brk_region.brk_current ∧
      ALLOC_ALIGN_UP P brk ≤ w.brk_region.brk_end ∧
      wsub (ALLOC_ALIGN_UP P w.brk_region.brk_current) (ALLOC_ALIGN_UP P brk)
        = ALLOC_ALIGN_UP P w.brk_region.brk_current - ALLOC_ALIGN_UP P brk ∧
      wsub w.brk_region.brk_end (ALLOC_ALIGN_UP P brk)
        = w.brk_region.brk_end - ALLOC_ALIGN_UP P brk) ∧
    (¬ brk < w.brk_region.brk_start → ¬ brk ≤ ALLOC_ALIGN_UP P w.brk_region.brk_current →
      ¬ brk > w.brk_region.brk_end →
      brk + (P.alloc_align - 1) < WORD ∧
      w.brk_region.brk_start ≤ ALLOC_ALIGN_UP P w.brk_region.brk_current ∧
      ALLOC_ALIGN_UP P w.brk_region.brk_current < ALLOC_ALIGN_UP P brk ∧
      ALLOC_ALIGN_UP P brk ≤ w.brk_region.brk_end ∧
      wsub (ALLOC_ALIGN_UP P brk) w.brk_region.brk_start
        = ALLOC_ALIGN_UP P brk - w.brk_region.brk_start ∧
      (w.rlimit_data < WORD → ¬ w.rlimit_data < w.brk_region.data_segment_size →
        wsub w.rlimit_data w.brk_region.data_segment_size
          = w.rlimit_data - w.brk_region.data_segment_size) ∧
      wsub (ALLOC_ALIGN_UP P brk) (ALLOC_ALIGN_UP P w.brk_region.brk_current)
        = ALLOC_ALIGN_UP P brk - ALLOC_ALIGN_UP P w.brk_region.brk_current ∧
      wsub (ALLOC_ALIGN_UP P brk) (ALLOC_ALIGN_UP P w.brk_region.brk_current) ≠ 0 ∧
      wsub w.brk_region.brk_end (ALLOC_ALIGN_UP P w.brk_region.brk_current)
        = w.brk_region.brk_end - ALLOC_ALIGN_UP P w.brk_region.brk_current) ∧
    shim_do_brk P env w brk ≠ .error .assert_failed := by
  have ha := initialized_align hP hinit
  have hroom := aligned_add_le hP hinit.2.2.1 ha.2.2.2.2.2
  have hg := hP.1
  have hi1 := hinit.1
  have hi2 := hinit.2.1
  have hgrow : ¬ brk < w.brk_region.brk_start →
      ¬ brk ≤ ALLOC_ALIGN_UP P w.brk_region.brk_current → ¬ brk > w.brk_region.brk_end →
      wsub (ALLOC_ALIGN_UP P brk) (ALLOC_ALIGN_UP P w.brk_region.brk_current) ≠ 0 := by
    intro _ h2 h3
    obtain ⟨-, -, hg3, hg4, -, -⟩ := grow_align hP hinit (not_le.1 h2) (not_lt.1 h3)
    rw [hg4]; omega
  refine ⟨by omega, fun h1 h2 => ?_, fun h1 h2 h3 => ?_, ?_⟩
  · obtain ⟨hs1, hs2, hs3, hs4, hs5⟩ := shrink_align hP hinit h2
    exact ⟨by omega, hs2, hs3, hs4, hs5⟩
  · obtain ⟨hg1, hg2, hg3, hg4, hg5, hg6⟩ := grow_align hP hinit (not_le.1 h2) (not_lt.1 h3)
    exact ⟨by omega, by omega, hg3, hg2, hg5,
      fun hw hge => wsub_of_le (not_lt.1 hge) hw, hg4, hgrow h1 h2 h3, hg6⟩
  · intro herr
    unfold shim_do_brk at herr
    simp only [shim_do_brk_out, World.log] at herr
    split_ifs at herr with c1 c2 c3 c4 c5 c6 c7 c8 c9
    all_goals first
      | exact hgrow ‹_› ‹_› ‹_› ‹_›
      | exact absurd herr (by simp)

/-- Witness for C19: the grow request `0x4800` in the scenario: `0x4000 < 0x5000 ≤ 0x5000`
and the assertion holds. -/
theorem shim_do_brk_arithmetic_safe_witness :
    pal4k.wf ∧ scenario.brk_region.initialized pal4k ∧
    (ALLOC_ALIGN_UP pal4k scenario.brk_region.brk_current < ALLOC_ALIGN_UP pal4k 0x4800 ∧
      ALLOC_ALIGN_UP pal4k 0x4800 ≤ scenario.brk_region.brk_end) ∧
    shim_do_brk pal4k okEnv scenario 0x4800 ≠ .error .assert_failed :=
  ⟨by decide, by decide,
   ⟨((shim_do_brk_arithmetic_safe pal4k (by decide) okEnv scenario (by decide) 0x4800).2.2.1
        (by decide) (by decide) (by decide)).2.2.1,
    ((shim_do_brk_arithmetic_safe pal4k (by decide) okEnv scenario (by decide) 0x4800).2.2.1
        (by decide) (by decide) (by decide)).2.2.2.1⟩,
   (shim_do_brk_arithmetic_safe pal4k (by decide) okEnv scenario (by decide) 0x4800).2.2.2⟩

theorem align_down_mod (P : Pal) (x : Nat) : ALLOC_ALIGN_DOWN P x % P.alloc_align = 0 := by
  unfold ALLOC_ALIGN_DOWN
  have h := Nat.div_add_mod x P.alloc_align
  have : x - x % P.alloc_align = P.alloc_align * (x / P.alloc_align) := by omega
  rw [this]
  exact Nat.mul_mod_right _ _

theorem align_down_le (P : Pal) (x : Nat) : ALLOC_ALIGN_DOWN P x ≤ x := Nat.sub_le _ _

/-- The offset of `init_brk_region` is allocation-aligned. -/
theorem init_brk_offset_mod (P : Pal) (bits b M : Nat) :
    init_brk_offset P bits b M % P.alloc_align = 0 := by
  unfold init_brk_offset
  split_ifs
  · exact align_down_mod P _
  · exact Nat.zero_mod _

/-! ## C17 -/

/-- C17. Layout randomization in `init_brk_region`: whenever the preferred-start branch is
taken (`brk_start` non-null, `brk_start ≤ ceiling`, `max_size ≤ ceiling`,
`brk_start < ceiling - max_size`), the two machine subtractions are exact and the modulus
`min(0x2000000, ceiling - max_size - brk_start)` is not zero; for every random value, the
offset (with `ENABLE_ASLR`, the random value modulo that modulus, rounded down; otherwise
0) is allocation-aligned and strictly less than the modulus; the sum `brk_start + offset`
does not wrap, is allocation-aligned when `brk_start` is, and the window
`[brk_start + offset, brk_start + offset + max_size)` ends strictly below the ceiling. This
is the address `init_brk_region` passes to the Bookkeeper. -/
theorem init_brk_region_randomized_start (P : Pal) (hP : P.wf) (bits brk_start max_size : Nat)
    (_h0 : brk_start ≠ 0) (h1 : brk_start ≤ P.user_address_end)
    (h2 : max_size ≤ P.user_address_end)
    (h3 : brk_start < wsub P.user_address_end max_size) :
    wsub (wsub P.user_address_end max_size) brk_start
      = P.user_address_end - max_size - brk_start ∧
    0 < min 0x2000000 (P.user_address_end - max_size - brk_start) ∧
    (P.ENABLE_ASLR = true →
      init_brk_offset P bits brk_start max_size =
        ALLOC_ALIGN_DOWN P
          ((bits % WORD) % min 0x2000000 (P.user_address_end - max_size - brk_start))) ∧
    init_brk_offset P bits brk_start max_size % P.alloc_align = 0 ∧
    init_brk_offset P bits brk_start max_size
      < min 0x2000000 (P.user_address_end - max_size - brk_start) ∧
    wadd brk_start (init_brk_offset P bits brk_start max_size)
      = brk_start + init_brk_offset P bits brk_start max_size ∧
    (IS_ALLOC_ALIGNED P brk_start = true →
      IS_ALLOC_ALIGNED P (wadd brk_start (init_brk_offset P bits brk_start max_size)) = true) ∧
    brk_start + init_brk_offset P bits brk_start max_size + max_size < P.user_address_end ∧
    (∀ (env : InitEnv) (w w1 : World) (s : Nat), env.DkRandomBitsRead.2 = bits →
      init_brk_region_preferred P env w brk_start max_size = .ok (s, w1) → s ≠ 0 →
      s = brk_start + init_brk_offset P bits brk_start max_size ∧
      ∃ ret, w1.calls = w.calls ++
        [.bkeep_mmap_fixed (brk_start + init_brk_offset P bits brk_start max_size) max_size
          PROT_NONE (MAP_FIXED_NOREPLACE ||| VMA_UNMAPPED) ret]) := by
  have hE := hP.2.2.1
  have hX : wsub P.user_address_end max_size = P.user_address_end - max_size :=
    wsub_of_le h2 hE
  have hD : wsub (wsub P.user_address_end max_size) brk_start
      = P.user_address_end - max_size - brk_start := by
    rw [wsub_of_le (le_of_lt h3) (wsub_lt_word _ _), hX]
  rw [hX] at h3
  have hm : 0 < min 0x2000000 (P.user_address_end - max_size - brk_start) := by
    apply lt_min (by decide); omega
  have hform : P.ENABLE_ASLR = true →
      init_brk_offset P bits brk_start max_size =
        ALLOC_ALIGN_DOWN P
          ((bits % WORD) % min 0x2000000 (P.user_address_end - max_size - brk_start)) := by
    intro ha
    simp only [init_brk_offset, ha, if_true, hD]
  have hlt : init_brk_offset P bits brk_start max_size
      < min 0x2000000 (P.user_address_end - max_size - brk_start) := by
    by_cases ha : P.ENABLE_ASLR = true
    · rw [hform ha]
      exact lt_of_le_of_lt (align_down_le P _) (Nat.mod_lt _ hm)
    · simp only [init_brk_offset, ha]
      exact hm
  have hle : min 0x2000000 (P.user_address_end - max_size - brk_start)
      ≤ P.user_address_end - max_size - brk_start := min_le_right _ _
  have hsum : wadd brk_start (init_brk_offset P bits brk_start max_size)
      = brk_start + init_brk_offset P bits brk_start max_size :=
    Nat.mod_eq_of_lt (by omega)
  refine ⟨hD, hm, hform, init_brk_offset_mod P _ _ _, hlt, hsum, ?_, by omega, ?_⟩
  · intro hal
    rw [aligned_iff] at hal ⊢
    rw [hsum, Nat.add_mod, hal, init_brk_offset_mod]
    simp
  · intro env w w1 s hbits hpre hs
    rcases init_brk_region_preferred_ok hpre with ⟨rfl, -⟩ | ⟨rfl, -⟩ | ⟨-, hseq, ret, -, rfl⟩
    · exact absurd rfl hs
    · exact absurd rfl hs
    · rw [hbits, hsum] at hseq
      subst hseq
      exact ⟨rfl, ret, rfl⟩

/-- Witness for C17: preferred start `0x1000`, maximum heap size `0x4000`, the random bits
`0x123456789`: the offset is `0x1456000`. -/
theorem init_brk_region_randomized_start_witness :
    pal4k.wf ∧ init_brk_offset pal4k 0x123456789 0x1000 0x4000 = 0x1456000 ∧
    init_brk_offset pal4k 0x123456789 0x1000 0x4000 % pal4k.alloc_align = 0 ∧
    init_brk_offset pal4k 0x123456789 0x1000 0x4000
      < min 0x2000000 (pal4k.user_address_end - 0x4000 - 0x1000) ∧
    0x1000 + init_brk_offset pal4k 0x123456789 0x1000 0x4000 + 0x4000
      < pal4k.user_address_end :=
  ⟨by decide, by decide,
   (init_brk_region_randomized_start pal4k (by decide) 0x123456789 0x1000 0x4000 (by decide)
      (by decide) (by decide) (by decide)).2.2.2.1,
   (init_brk_region_randomized_start pal4k (by decide) 0x123456789 0x1000 0x4000 (by decide)
      (by decide) (by decide) (by decide)).2.2.2.2.1,
   (init_brk_region_randomized_start pal4k (by decide) 0x123456789 0x1000 0x4000 (by decide)
      (by decide) (by decide) (by decide)).2.2.2.2.2.2.2.1⟩

/-! ## The state after a successful `init_brk_region` -/

/-- When the preferred-start block keeps a non-null start, the branch was taken and the
fixed reservation at that start did not fail. -/
theorem init_brk_region_preferred_kept {P : Pal} {env : InitEnv} {w w1 : World} {b M s : Nat}
    (h : init_brk_region_preferred P env w b M = .ok (s, w1)) (hs : s ≠ 0) :
    (b ≠ 0 ∧ b ≤ P.user_address_end ∧ M ≤ P.user_address_end ∧ b < wsub P.user_address_end M) ∧
    s = wadd b (init_brk_offset P env.DkRandomBitsRead.2 b M) ∧
    0 ≤ env.bkeep_mmap_fixed s M PROT_NONE (MAP_FIXED_NOREPLACE ||| VMA_UNMAPPED) ∧
    w1 = w.log (.bkeep_mmap_fixed s M PROT_NONE (MAP_FIXED_NOREPLACE ||| VMA_UNMAPPED)
      (env.bkeep_mmap_fixed s M PROT_NONE (MAP_FIXED_NOREPLACE ||| VMA_UNMAPPED))) := by
  simp only [init_brk_region_preferred] at h
  split_ifs at h with hc ha he hneg
  · simp only [Except.ok.injEq, Prod.mk.injEq] at h
    exact absurd h.1.symm hs
  · simp only [Except.ok.injEq, Prod.mk.injEq] at h
    obtain ⟨rfl, rfl⟩ := h
    exact ⟨hc, rfl, not_lt.1 hneg, rfl⟩
  · simp only [Except.ok.injEq, Prod.mk.injEq] at h
    exact absurd h.1.symm hs

/-- When the preferred-start block leaves a null start, it has made no call that changes the
backed set, and no Bookkeeper call that succeeded. -/
theorem init_brk_region_preferred_null {P : Pal} {env : InitEnv} {w w1 : World} {b M : Nat}
    (h : init_brk_region_preferred P env w b M = .ok (0, w1)) :
    (∀ b0, backed w1.calls b0 = backed w.calls b0) ∧
    w1.brk_region = w.brk_region ∧ w1.rlimit_data = w.rlimit_data := by
  rcases init_brk_region_preferred_ok h with ⟨-, rfl⟩ | ⟨-, rfl⟩ | ⟨hs, -⟩
  · exact ⟨fun _ => rfl, rfl, rfl⟩
  · exact ⟨fun _ => backed_log_bkeep_mmap_fixed _ _ _ _ _ _ _, rfl, rfl⟩
  · exact absurd rfl hs

/-- When the reserve-anywhere block is entered with a null start, the reservation did not
fail and the start is the address it chose. -/
theorem init_brk_region_any_chosen {P : Pal} {env : InitEnv} {w w1 : World} {M s : Nat}
    (h : init_brk_region_any P env w 0 M = .ok (s, w1)) :
    s = (env.bkeep_mmap_any P.ENABLE_ASLR M PROT_NONE VMA_UNMAPPED).2 ∧
    0 ≤ (env.bkeep_mmap_any P.ENABLE_ASLR M PROT_NONE VMA_UNMAPPED).1 ∧
    w1 = w.log (.bkeep_mmap_any P.ENABLE_ASLR M PROT_NONE VMA_UNMAPPED
      (env.bkeep_mmap_any P.ENABLE_ASLR M PROT_NONE VMA_UNMAPPED).1 s) := by
  simp only [init_brk_region_any, if_true] at h
  split_ifs at h with hneg
  simp only [Except.ok.injEq, Prod.mk.injEq] at h
  obtain ⟨rfl, rfl⟩ := h
  exact ⟨rfl, not_lt.1 hneg, rfl⟩

/-- The start chosen in the preferred-start branch: the sum does not wrap, stays aligned
and leaves room for the window below the ceiling. -/
theorem init_brk_start_facts {P : Pal} (hP : P.wf) (bits b M : Nat)
    (h2 : M ≤ P.user_address_end) (h3 : b < wsub P.user_address_end M)
    (hal : b % P.alloc_align = 0) :
    wadd b (init_brk_offset P bits b M) % P.alloc_align = 0 ∧
    wadd b (init_brk_offset P bits b M) + M < P.user_address_end := by
  have hlt := init_brk_offset_lt P bits b M h3
  have hX : wsub P.user_address_end M = P.user_address_end - M := wsub_of_le h2 hP.2.2.1
  have hE := hP.2.2.1
  have hsum : wadd b (init_brk_offset P bits b M) = b + init_brk_offset P bits b M :=
    Nat.mod_eq_of_lt (by omega)
  rw [hsum]
  refine ⟨?_, by omega⟩
  rw [Nat.add_mod, hal, init_brk_offset_mod]
  simp

theorem init_brk_max_size_lt {P : Pal} (hP : P.wf) (env : InitEnv) :
    init_brk_max_size P env < WORD := by
  unfold init_brk_max_size
  split_ifs
  · have h1 : (0 : Int) ≤ env.parse_int % (WORD : Int) :=
      Int.emod_nonneg _ (by decide)
    have h2 : env.parse_int % (WORD : Int) < (WORD : Int) :=
      Int.emod_lt_of_pos _ (by decide)
    omega
  · exact hP.2.2.2

/-- The state after `init_brk_region` has returned 0. -/
theorem init_brk_region_state {P : Pal} (hP : P.wf) {env : InitEnv} {w w0 : World}
    {brk_start data_segment_size : Nat}
    (herrno : ∀ e, 0 < e → 0 < env.convert_pal_errno e) (hany : env.any_contract P)
    (h : init_brk_region P env w brk_start data_segment_size = (0, w0)) :
    w0.brk_region.brk_current = w0.brk_region.brk_start ∧
    w0.brk_region.brk_end = w0.brk_region.brk_start + init_brk_max_size P env ∧
    w0.brk_region.data_segment_size = ALLOC_ALIGN_UP P data_segment_size ∧
    w0.rlimit_data = wadd (init_brk_max_size P env) (ALLOC_ALIGN_UP P data_segment_size) ∧
    w0.brk_region.brk_start % P.alloc_align = 0 ∧
    init_brk_max_size P env % P.alloc_align = 0 ∧
    w0.brk_region.brk_start + init_brk_max_size P env < WORD ∧
    (∀ b0, backed w0.calls b0 = backed w.calls b0) ∧
    ∃ pre c, w0.calls = pre ++ [c] ∧
      ((c = .bkeep_mmap_fixed w0.brk_region.brk_start (init_brk_max_size P env) PROT_NONE
            (MAP_FIXED_NOREPLACE ||| VMA_UNMAPPED)
            (env.bkeep_mmap_fixed w0.brk_region.brk_start (init_brk_max_size P env) PROT_NONE
              (MAP_FIXED_NOREPLACE ||| VMA_UNMAPPED)) ∧
          0 ≤ env.bkeep_mmap_fixed w0.brk_region.brk_start (init_brk_max_size P env) PROT_NONE
              (MAP_FIXED_NOREPLACE ||| VMA_UNMAPPED))
        ∨ (c = .bkeep_mmap_any P.ENABLE_ASLR (init_brk_max_size P env) PROT_NONE VMA_UNMAPPED
            (env.bkeep_mmap_any P.ENABLE_ASLR (init_brk_max_size P env) PROT_NONE
              VMA_UNMAPPED).1 w0.brk_region.brk_start ∧
          0 ≤ (env.bkeep_mmap_any P.ENABLE_ASLR (init_brk_max_size P env) PROT_NONE
              VMA_UNMAPPED).1)) := by
  unfold init_brk_region at h
  simp only at h
  by_cases h1 : brk_start ≠ 0 ∧ IS_ALLOC_ALIGNED P brk_start = false
  · rw [if_pos h1] at h
    have h0 : (-EINVAL : Int) = 0 := congrArg Prod.fst h
    exact absurd h0 (by decide)
  rw [if_neg h1] at h
  by_cases h2 : IS_ALLOC_ALIGNED P (init_brk_max_size P env) = false
  · rw [if_pos h2] at h
    have h0 : (-EINVAL : Int) = 0 := congrArg Prod.fst h
    exact absurd h0 (by decide)
  rw [if_neg h2] at h
  have hMal : init_brk_max_size P env % P.alloc_align = 0 :=
    aligned_iff.1 (by simpa using h2)
  have hMw := init_brk_max_size_lt hP env
  generalize hpre : init_brk_region_preferred P env w brk_start (init_brk_max_size P env) = rp at h
  rcases rp with r | ⟨s1, w1⟩
  · exact absurd (congrArg Prod.fst h) (init_brk_region_preferred_error herrno hpre)
  simp only at h
  generalize hanyr : init_brk_region_any P env w1 s1 (init_brk_max_size P env) = ra at h
  rcases ra with r | ⟨s, w2⟩
  · exact absurd (congrArg Prod.fst h) (init_brk_region_any_error hanyr)
  simp only at h
  by_cases hl : env.create_lock = false
  · rw [if_pos hl] at h
    have h0 : (-ENOMEM : Int) = 0 := congrArg Prod.fst h
    exact absurd h0 (by decide)
  rw [if_neg hl] at h
  simp only [Prod.mk.injEq, true_and] at h
  subst h
  simp only
  by_cases hs1 : s1 = 0
  · subst hs1
    obtain ⟨hb, -, -⟩ := init_brk_region_preferred_null hpre
    obtain ⟨hs, hret, rfl⟩ := init_brk_region_any_chosen hanyr
    have hsum : wadd s (init_brk_max_size P env) = s + init_brk_max_size P env :=
      Nat.mod_eq_of_lt (by rw [hs]; exact hany.2)
    refine ⟨trivial, hsum, trivial, trivial, by rw [hs]; exact hany.1, hMal, by rw [hs]; exact hany.2,
      fun b0 => ?_, w1.calls, _, rfl, Or.inr ⟨rfl, hret⟩⟩
    simp only [World.log]
    rw [backed_log_bkeep_mmap_any, hb]
  · obtain ⟨hc, hseq, hret, rfl⟩ := init_brk_region_preferred_kept hpre hs1
    have hss : s = s1 := by
      rcases init_brk_region_any_ok hanyr with ⟨-, hss, -⟩ | ⟨hz, -⟩
      · exact hss
      · exact absurd hz hs1
    have hw2 : w2 = w.log (.bkeep_mmap_fixed s1 (init_brk_max_size P env) PROT_NONE
        (MAP_FIXED_NOREPLACE ||| VMA_UNMAPPED)
        (env.bkeep_mmap_fixed s1 (init_brk_max_size P env) PROT_NONE
          (MAP_FIXED_NOREPLACE ||| VMA_UNMAPPED))) := by
      rcases init_brk_region_any_ok hanyr with ⟨-, -, hw⟩ | ⟨hz, -⟩
      · exact hw
      · exact absurd hz hs1
    subst hss hw2
    have hbal : brk_start % P.alloc_align = 0 := by
      by_contra hna
      exact h1 ⟨hc.1, by simpa [IS_ALLOC_ALIGNED] using hna⟩
    obtain ⟨hf1, hf2⟩ := init_brk_start_facts hP env.DkRandomBitsRead.2 brk_start
      (init_brk_max_size P env) hc.2.2.1 hc.2.2.2 hbal
    rw [← hseq] at hf1 hf2
    have hE := hP.2.2.1
    have hsum : wadd s (init_brk_max_size P env) = s + init_brk_max_size P env :=
      Nat.mod_eq_of_lt (by omega)
    refine ⟨trivial, hsum, trivial, trivial, hf1, hMal, by omega, fun b0 => ?_, w.calls, _, rfl,
      Or.inl ⟨rfl, hret⟩⟩
    simp only [World.log]
    rw [backed_log_bkeep_mmap_fixed]

/-! ## C20 -/

/-- C20. Init and the limit check agree. Let `init_brk_region` have returned 0 (the address
chosen by reserve-anywhere being aligned, its window not wrapping) with
`max_size + align_up(data_segment_size)` not overflowing. In every later state with the
same `start`, `end`, `data_segment_size` and `RLIMIT_DATA`, and `start ≤ current ≤ end`,
every request with `align_up(current) < requested ≤ end` passes the resource-limit check
of `shim_do_brk`: `rlim_data ≥ data_segment_size` and
`rlim_data - data_segment_size ≥ align_up(requested) - start`. Such a request is never
returned unanswered without a collaborator call, and it is granted whenever the Bookkeeper
mark and the Allocator commit do not fail. -/
theorem init_brk_region_limit_agrees (P : Pal) (hP : P.wf) (env : InitEnv) (w w0 : World)
    (brk_start data_segment_size : Nat)
    (herrno : ∀ e, 0 < e → 0 < env.convert_pal_errno e) (hany : env.any_contract P)
    (hsum : init_brk_max_size P env + ALLOC_ALIGN_UP P data_segment_size < WORD)
    (h : init_brk_region P env w brk_start data_segment_size = (0, w0)) :
    w0.rlimit_data = init_brk_max_size P env + ALLOC_ALIGN_UP P data_segment_size ∧
    ∀ w1 : World,
      w1.brk_region.brk_start = w0.brk_region.brk_start →
      w1.brk_region.brk_end = w0.brk_region.brk_end →
      w1.brk_region.data_segment_size = w0.brk_region.data_segment_size →
      w1.rlimit_data = w0.rlimit_data →
      w1.brk_region.brk_start ≤ w1.brk_region.brk_current →
      w1.brk_region.brk_current ≤ w1.brk_region.brk_end →
      ∀ brk, ALLOC_ALIGN_UP P w1.brk_region.brk_current < brk → brk ≤ w1.brk_region.brk_end →
        w1.brk_region.data_segment_size ≤ w1.rlimit_data ∧
        ALLOC_ALIGN_UP P brk - w1.brk_region.brk_start
          ≤ w1.rlimit_data - w1.brk_region.data_segment_size ∧
        ¬ (w1.rlimit_data < w1.brk_region.data_segment_size
          ∨ wsub w1.rlimit_data w1.brk_region.data_segment_size
              < wsub (ALLOC_ALIGN_UP P brk) w1.brk_region.brk_start) ∧
        ∀ envb : BrkEnv,
          shim_do_brk P envb w1 brk ≠ .ok (w1.brk_region.brk_current, w1) ∧
          (¬ envb.bkeep_mmap_fixed (ALLOC_ALIGN_UP P w1.brk_region.brk_current)
              (ALLOC_ALIGN_UP P brk - ALLOC_ALIGN_UP P w1.brk_region.brk_current)
              (PROT_READ ||| PROT_WRITE) (MAP_PRIVATE ||| MAP_ANONYMOUS ||| MAP_FIXED) < 0 →
            envb.DkVirtualMemoryAlloc (ALLOC_ALIGN_UP P w1.brk_region.brk_current)
              (ALLOC_ALIGN_UP P brk - ALLOC_ALIGN_UP P w1.brk_region.brk_current)
              0 (PAL_PROT_READ ||| PAL_PROT_WRITE) ≠ 0 →
            ∃ w2, shim_do_brk P envb w1 brk = .ok (brk, w2) ∧
              w2.brk_region = { w1.brk_region with brk_current := brk }) := by
  obtain ⟨-, hend, hdss, hrl, hsal, hMal, hsw, -, -⟩ := init_brk_region_state hP herrno hany h
  have hrl' : w0.rlimit_data = init_brk_max_size P env + ALLOC_ALIGN_UP P data_segment_size := by
    rw [hrl]; exact Nat.mod_eq_of_lt hsum
  refine ⟨hrl', ?_⟩
  intro w1 e1 e2 e3 e4 hc1 hc2 brk hb1 hb2
  have heal : w0.brk_region.brk_end % P.alloc_align = 0 := by
    rw [hend, Nat.add_mod, hsal, hMal]; simp
  have hinit1 : w1.brk_region.initialized P :=
    ⟨hc1, hc2, by rw [e2, hend]; exact hsw, aligned_iff.2 (by rw [e1]; exact hsal),
      aligned_iff.2 (by rw [e2]; exact heal)⟩
  obtain ⟨hg1, hg2, hg3, hg4, hg5, hg6⟩ := grow_align hP hinit1 hb1 hb2
  have ha := initialized_align hP hinit1
  have hsubrl : wsub w1.rlimit_data w1.brk_region.data_segment_size
      = w1.rlimit_data - w1.brk_region.data_segment_size :=
    wsub_of_le (by rw [e4, hrl', e3, hdss]; omega) (by rw [e4, hrl']; exact hsum)
  have hlim : ¬ (w1.rlimit_data < w1.brk_region.data_segment_size
      ∨ wsub w1.rlimit_data w1.brk_region.data_segment_size
          < wsub (ALLOC_ALIGN_UP P brk) w1.brk_region.brk_start) := by
    rw [hsubrl, hg5, e4, hrl', e3, hdss]
    rw [e2, hend, ← e1] at hg2
    omega
  refine ⟨by rw [e4, hrl', e3, hdss]; omega, ?_, hlim, fun envb => ⟨fun hres => ?_, ?_⟩⟩
  · rw [e4, hrl', e3, hdss]
    rw [e2, hend, ← e1] at hg2
    omega
  · have := brk_grow_calls (by omega) (by omega) (by omega) hlim hres
    omega
  · intro hbk halloc
    exact ⟨_, brk_grow (by omega) (by omega) (by omega) hlim (by rw [hg4]; omega)
      (by rw [hg4]; exact hbk) (by rw [hg4]; exact halloc), rfl⟩

/-- Witness for C20: after the initialization of the blank state (window
`[0x1457000, 0x145b000)`), the request `0x145a500` passes the limit check and is granted. -/
theorem init_brk_region_limit_agrees_witness :
    pal4k.wf ∧ init_brk_region pal4k (initEnv 0x4000) blank 0x1000 0x1800 = (0, blank_init) ∧
    ¬ (blank_init.rlimit_data < blank_init.brk_region.data_segment_size
      ∨ wsub blank_init.rlimit_data blank_init.brk_region.data_segment_size
          < wsub (ALLOC_ALIGN_UP pal4k 0x145a500) blank_init.brk_region.brk_start) ∧
    shim_do_brk pal4k failEnv blank_init 0x145a500
      ≠ .ok (blank_init.brk_region.brk_current, blank_init) :=
  ⟨by decide, by decide,
   ((init_brk_region_limit_agrees pal4k (by decide) (initEnv 0x4000) blank blank_init 0x1000
      0x1800 (fun _ he => he) ⟨by decide, by decide⟩ (by decide) (by decide)).2 blank_init
      rfl rfl rfl rfl (by decide) (by decide) 0x145a500 (by decide) (by decide)).2.2.1,
   (((init_brk_region_limit_agrees pal4k (by decide) (initEnv 0x4000) blank blank_init 0x1000
      0x1800 (fun _ he => he) ⟨by decide, by decide⟩ (by decide) (by decide)).2 blank_init
      rfl rfl rfl rfl (by decide) (by decide) 0x145a500 (by decide) (by decide)).2.2.2
      failEnv).1⟩

/-! ## The commit-consistency invariant -/

theorem commit_consistent_iff (P : Pal) (w : World) (l0 : Nat → Mark) (b0 : Nat → Bool) :
    commit_consistent P w l0 b0 ↔
      consistent_at w.calls l0 b0 w.brk_region.brk_start
        (ALLOC_ALIGN_UP P w.brk_region.brk_current) w.brk_region.brk_end := Iff.rfl

theorem noreplace_flags : ¬ ((MAP_FIXED_NOREPLACE ||| VMA_UNMAPPED) &&& VMA_UNMAPPED = 0) := by
  decide

theorem unmapped_flag : ¬ (VMA_UNMAPPED &&& VMA_UNMAPPED = 0) := by decide

/-- A Bookkeeper call that fails leaves the invariant as it is. -/
theorem consistent_failed_mark {cs : List Call} {l0 : Nat → Mark} {b0 : Nat → Bool}
    {s m e : Nat} (h : consistent_at cs l0 b0 s m e) (addr len prot flags : Nat) (ret : Int)
    (hret : ret ≠ 0) :
    consistent_at (cs ++ [.bkeep_mmap_fixed addr len prot flags ret]) l0 b0 s m e := by
  intro a
  have hl : ledger (cs ++ [.bkeep_mmap_fixed addr len prot flags ret]) l0 = ledger cs l0 := by
    rw [ledger_snoc]; simp only [ledger_step, hret, if_false]
  rw [hl, backed_log_bkeep_mmap_fixed]
  exact h a

/-- A successful shrink moves the end of the committed prefix down. -/
theorem consistent_shrink {cs : List Call} {l0 : Nat → Mark} {b0 : Nat → Bool}
    {s m e : Nat} (h : consistent_at cs l0 b0 s m e) (B prot : Nat)
    (hBm : B ≤ m) (hme : m ≤ e) :
    consistent_at
      (cs ++ [.bkeep_mmap_fixed B (e - B) prot (MAP_FIXED ||| VMA_UNMAPPED) 0,
              .DkVirtualMemoryFree B (m - B)]) l0 b0 s B e := by
  unfold consistent_at at h
  intro a
  simp only [ledger_append, backed_append]
  generalize ledger cs l0 = L at h ⊢
  generalize backed cs b0 = K at h ⊢
  simp only [ledger, backed, List.foldl, ledger_step, backed_step, if_true, unmapped_flags,
    if_false]
  have h1 := (h a).1
  have h2 := (h a).2
  refine ⟨fun ha1 ha2 => ?_, fun ha1 ha2 => ?_⟩
  · rw [if_neg (by omega), if_neg (by omega)]
    exact h1 ha1 (by omega)
  · rw [if_pos (by omega)]
    refine ⟨rfl, ?_⟩
    by_cases hc : a < m
    · rw [if_pos (by omega)]
    · rw [if_neg (by omega)]
      exact (h2 (by omega) ha2).2

/-- A successful grow moves the end of the committed prefix up. -/
theorem consistent_grow {cs : List Call} {l0 : Nat → Mark} {b0 : Nat → Bool}
    {s m e : Nat} (h : consistent_at cs l0 b0 s m e) (B prot t q mem : Nat)
    (hmB : m ≤ B) (hmem : mem ≠ 0) :
    consistent_at
      (cs ++ [.bkeep_mmap_fixed m (B - m) prot (MAP_PRIVATE ||| MAP_ANONYMOUS ||| MAP_FIXED) 0,
              .DkVirtualMemoryAlloc m (B - m) t q mem]) l0 b0 s B e := by
  unfold consistent_at at h
  intro a
  simp only [ledger_append, backed_append]
  generalize ledger cs l0 = L at h ⊢
  generalize backed cs b0 = K at h ⊢
  simp only [ledger, backed, List.foldl, ledger_step, backed_step, if_true, committed_flags,
    hmem, if_false]
  have h1 := (h a).1
  have h2 := (h a).2
  refine ⟨fun ha1 ha2 => ?_, fun ha1 ha2 => ?_⟩
  · by_cases hc : a < m
    · rw [if_neg (by omega), if_neg (by omega)]
      exact h1 ha1 hc
    · rw [if_pos (by omega), if_pos (by omega)]
      exact ⟨rfl, rfl⟩
  · rw [if_neg (by omega), if_neg (by omega)]
    exact h2 (by omega) ha2

/-- A grow whose commit fails and whose rollback re-mark succeeds leaves the invariant. -/
theorem consistent_rollback {cs : List Call} {l0 : Nat → Mark} {b0 : Nat → Bool}
    {s m e : Nat} (h : consistent_at cs l0 b0 s m e) (B prot prot2 t q : Nat) (ret : Int)
    (hmB : m ≤ B) (hBe : B ≤ e) :
    consistent_at
      (cs ++ [.bkeep_mmap_fixed m (B - m) prot (MAP_PRIVATE ||| MAP_ANONYMOUS ||| MAP_FIXED) ret,
              .DkVirtualMemoryAlloc m (B - m) t q 0,
              .bkeep_mmap_fixed m (e - m) prot2 (MAP_FIXED ||| VMA_UNMAPPED) 0]) l0 b0 s m e := by
  unfold consistent_at at h
  intro a
  simp only [ledger_append, backed_append]
  generalize ledger cs l0 = L at h ⊢
  generalize backed cs b0 = K at h ⊢
  simp only [ledger, backed, List.foldl, ledger_step, backed_step, if_true, committed_flags,
    unmapped_flags, if_false]
  have h1 := (h a).1
  have h2 := (h a).2
  refine ⟨fun ha1 ha2 => ?_, fun ha1 ha2 => ?_⟩
  · rw [if_neg (by omega)]
    split_ifs with hr
    · have hout : ¬ (m ≤ a ∧ a < m + (B - m)) := by omega
      simp only [hout, if_false]
      exact h1 ha1 ha2
    · exact h1 ha1 ha2
  · rw [if_pos (by omega)]
    exact ⟨rfl, (h2 ha1 ha2).2⟩

/-- A successful `init_brk_region` leaves an initialized region that satisfies the
commit-consistency invariant, when the Bookkeeper returns 0 or a negative value and the
window it reserved was not backed. -/
theorem init_commit_consistent {P : Pal} (hP : P.wf) {env : InitEnv} {w w0 : World}
    {brk_start data_segment_size : Nat} (l0 : Nat → Mark) (b0 : Nat → Bool)
    (herrno : ∀ e, 0 < e → 0 < env.convert_pal_errno e) (hany : env.any_contract P)
    (hfix : ∀ a l p f, env.bkeep_mmap_fixed a l p f ≤ 0)
    (hanyret : ∀ x l p f, (env.bkeep_mmap_any x l p f).1 ≤ 0)
    (h : init_brk_region P env w brk_start data_segment_size = (0, w0))
    (hfree : ∀ a, w0.brk_region.brk_start ≤ a → a < w0.brk_region.brk_end →
      backed w.calls b0 a = false) :
    w0.brk_region.initialized P ∧ commit_consistent P w0 l0 b0 := by
  obtain ⟨hcur, hend, -, -, hsal, hMal, hsw, hback, pre, c, hcalls, hc⟩ :=
    init_brk_region_state hP herrno hany h
  have heal : w0.brk_region.brk_end % P.alloc_align = 0 := by
    rw [hend, Nat.add_mod, hsal, hMal]; simp
  have hinit : w0.brk_region.initialized P :=
    ⟨by omega, by omega, by omega, aligned_iff.2 hsal, aligned_iff.2 heal⟩
  refine ⟨hinit, ?_⟩
  have hau : ALLOC_ALIGN_UP P w0.brk_region.brk_current = w0.brk_region.brk_start := by
    rw [hcur]; exact align_up_of_aligned hP (by omega) hsal
  intro a
  rw [hau]
  refine ⟨fun h1 h2 => absurd h2 (by omega), fun h1 h2 => ⟨?_, ?_⟩⟩
  · rw [hcalls, ledger_snoc]
    rcases hc with ⟨rfl, hret⟩ | ⟨rfl, hret⟩
    · have hz := le_antisymm (hfix _ _ _ _) hret
      simp only [ledger_step, hz, if_true, noreplace_flags, if_false]
      rw [if_pos ⟨h1, by omega⟩]
    · have hz := le_antisymm (hanyret _ _ _ _) hret
      simp only [ledger_step, hz, if_true, unmapped_flag, if_false]
      rw [if_pos ⟨h1, by omega⟩]
  · rw [hback]
    exact hfree a h1 h2

/-- Every call of `shim_do_brk` that returns preserves the commit-consistency invariant of
an initialized region, when the Bookkeeper returns 0 or a negative value. -/
theorem brk_commit_consistent {P : Pal} (hP : P.wf) {env : BrkEnv} {w w' : World}
    {brk v : Nat} (l0 : Nat → Mark) (b0 : Nat → Bool)
    (hinit : w.brk_region.initialized P)
    (hfix : ∀ a l p f, env.bkeep_mmap_fixed a l p f ≤ 0)
    (hinv : commit_consistent P w l0 b0)
    (h : shim_do_brk P env w brk = .ok (v, w')) :
    commit_consistent P w' l0 b0 := by
  have ha := initialized_align hP hinit
  have hi1 := hinit.1
  rw [commit_consistent_iff] at hinv ⊢
  by_cases h1 : brk < w.brk_region.brk_start
  · rw [brk_below h1] at h
    simp only [Except.ok.injEq, Prod.mk.injEq] at h
    obtain ⟨-, rfl⟩ := h
    exact hinv
  by_cases h2 : brk ≤ ALLOC_ALIGN_UP P w.brk_region.brk_current
  · obtain ⟨hs1, hs2, hs3, hs4, hs5⟩ := shrink_align hP hinit h2
    by_cases h3 : wsub (ALLOC_ALIGN_UP P w.brk_region.brk_current) (ALLOC_ALIGN_UP P brk) = 0
    · rw [brk_same_granule h1 h2 h3] at h
      simp only [Except.ok.injEq, Prod.mk.injEq] at h
      obtain ⟨-, rfl⟩ := h
      have heq : ALLOC_ALIGN_UP P brk = ALLOC_ALIGN_UP P w.brk_region.brk_current := by
        rw [hs4] at h3; omega
      simp only [heq]
      exact hinv
    · by_cases h4 : env.bkeep_mmap_fixed (ALLOC_ALIGN_UP P brk)
          (wsub w.brk_region.brk_end (ALLOC_ALIGN_UP P brk)) PROT_NONE
          (MAP_FIXED ||| VMA_UNMAPPED) = 0
      · rw [brk_shrink h1 h2 h3 h4] at h
        simp only [Except.ok.injEq, Prod.mk.injEq] at h
        obtain ⟨-, rfl⟩ := h
        simp only [hs4, hs5]
        exact consistent_shrink hinv _ _ hs2 ha.2.1
      · rw [brk_shrink_fail h1 h2 h3 h4] at h
        simp only [Except.ok.injEq, Prod.mk.injEq] at h
        obtain ⟨-, rfl⟩ := h
        exact consistent_failed_mark hinv _ _ _ _ _ h4
  by_cases h3 : brk > w.brk_region.brk_end
  · rw [brk_above h1 h2 h3] at h
    simp only [Except.ok.injEq, Prod.mk.injEq] at h
    obtain ⟨-, rfl⟩ := h
    exact hinv
  by_cases h4 : w.rlimit_data < w.brk_region.data_segment_size
        ∨ wsub w.rlimit_data w.brk_region.data_segment_size
            < wsub (ALLOC_ALIGN_UP P brk) w.brk_region.brk_start
  · rw [brk_limit h1 h2 h3 h4] at h
    simp only [Except.ok.injEq, Prod.mk.injEq] at h
    obtain ⟨-, rfl⟩ := h
    exact hinv
  obtain ⟨hg1, hg2, hg3, hg4, hg5, hg6⟩ := grow_align hP hinit (not_le.1 h2) (not_lt.1 h3)
  have h5 : wsub (ALLOC_ALIGN_UP P brk) (ALLOC_ALIGN_UP P w.brk_region.brk_current) ≠ 0 := by
    rw [hg4]; omega
  by_cases h6 : env.bkeep_mmap_fixed (ALLOC_ALIGN_UP P w.brk_region.brk_current)
      (wsub (ALLOC_ALIGN_UP P brk) (ALLOC_ALIGN_UP P w.brk_region.brk_current))
      (PROT_READ ||| PROT_WRITE) (MAP_PRIVATE ||| MAP_ANONYMOUS ||| MAP_FIXED) < 0
  · rw [brk_grow_bkeep_fail h1 h2 h3 h4 h5 h6] at h
    simp only [Except.ok.injEq, Prod.mk.injEq] at h
    obtain ⟨-, rfl⟩ := h
    exact consistent_failed_mark hinv _ _ _ _ _ (by omega)
  have h6z : env.bkeep_mmap_fixed (ALLOC_ALIGN_UP P w.brk_region.brk_current)
      (wsub (ALLOC_ALIGN_UP P brk) (ALLOC_ALIGN_UP P w.brk_region.brk_current))
      (PROT_READ ||| PROT_WRITE) (MAP_PRIVATE ||| MAP_ANONYMOUS ||| MAP_FIXED) = 0 :=
    le_antisymm (hfix _ _ _ _) (not_lt.1 h6)
  by_cases h7 : env.DkVirtualMemoryAlloc (ALLOC_ALIGN_UP P w.brk_region.brk_current)
      (wsub (ALLOC_ALIGN_UP P brk) (ALLOC_ALIGN_UP P w.brk_region.brk_current))
      0 (PAL_PROT_READ ||| PAL_PROT_WRITE) = 0
  · rw [brk_grow_rollback h1 h2 h3 h4 h5 h6 h7] at h
    split_ifs at h with h8
    simp only [Except.ok.injEq, Prod.mk.injEq] at h
    obtain ⟨-, rfl⟩ := h
    have h8z := le_antisymm (hfix (ALLOC_ALIGN_UP P w.brk_region.brk_current)
      (wsub w.brk_region.brk_end (ALLOC_ALIGN_UP P w.brk_region.brk_current)) PROT_NONE
      (MAP_FIXED ||| VMA_UNMAPPED)) (not_lt.1 h8)
    simp only [rollback_calls, h8z]
    simp only [hg4, hg6]
    exact consistent_rollback hinv _ _ _ _ _ _ (le_of_lt hg3) hg2
  · rw [brk_grow h1 h2 h3 h4 h5 h6 h7] at h
    simp only [Except.ok.injEq, Prod.mk.injEq] at h
    obtain ⟨-, rfl⟩ := h
    simp only [h6z]
    simp only [hg4]
    rw [hg4] at h7
    exact consistent_grow hinv _ _ _ _ _ (le_of_lt hg3) h7

/-- Every call of `shim_do_brk` that returns leaves an initialized region initialized. -/
theorem brk_initialized {P : Pal} (hP : P.wf) {env : BrkEnv} {w w' : World} {brk v : Nat}
    (hinit : w.brk_region.initialized P) (h : shim_do_brk P env w brk = .ok (v, w')) :
    w'.brk_region.initialized P := by
  have ha := initialized_align hP hinit
  obtain ⟨hi1, hi2, hi3, hi4, hi5⟩ := hinit
  unfold shim_do_brk at h
  simp only [shim_do_brk_out, World.log] at h
  split_ifs at h <;> simp only [Except.ok.injEq, Prod.mk.injEq] at h <;>
    obtain ⟨rfl, rfl⟩ := h <;>
    refine ⟨?_, ?_, hi3, hi4, hi5⟩ <;> (try simp only) <;> omega

/-! ## C16 -/

/-- C16. Commit-consistency invariant, with the Bookkeeper ledger and the Allocator's
backed set modelled as explicit state: `[start, align_up(current))` is marked committed
and backed, `[align_up(current), end)` is marked reserved and not backed. For a Bookkeeper
that returns 0 on success and a negative value on failure: (1) the invariant holds, on an
initialized region, after every `init_brk_region` that returns 0 (the address chosen by
reserve-anywhere being aligned, its window not wrapping and not backed before); (2) every
call of `shim_do_brk` that returns, on an accepted or a rejected request and whatever the
collaborators answer, takes an initialized region satisfying the invariant to an initialized
region satisfying the invariant. -/
theorem commit_consistency_invariant (P : Pal) (hP : P.wf) (l0 : Nat → Mark) (b0 : Nat → Bool) :
    (∀ (env : InitEnv) (w w0 : World) (brk_start data_segment_size : Nat),
      (∀ e, 0 < e → 0 < env.convert_pal_errno e) → env.any_contract P →
      (∀ a l p f, env.bkeep_mmap_fixed a l p f ≤ 0) →
      (∀ x l p f, (env.bkeep_mmap_any x l p f).1 ≤ 0) →
      init_brk_region P env w brk_start data_segment_size = (0, w0) →
      (∀ a, w0.brk_region.brk_start ≤ a → a < w0.brk_region.brk_end →
        backed w.calls b0 a = false) →
      w0.brk_region.initialized P ∧ commit_consistent P w0 l0 b0) ∧
    (∀ (env : BrkEnv) (w w' : World) (brk v : Nat),
      w.brk_region.initialized P →
      (∀ a l p f, env.bkeep_mmap_fixed a l p f ≤ 0) →
      commit_consistent P w l0 b0 →
      shim_do_brk P env w brk = .ok (v, w') →
      w'.brk_region.initialized P ∧ commit_consistent P w' l0 b0) :=
  ⟨fun _ _ _ _ _ herrno hany hfix hanyret h hfree =>
      init_commit_consistent hP l0 b0 herrno hany hfix hanyret h hfree,
   fun _ _ _ _ _ hinit hfix hinv h =>
      ⟨brk_initialized hP hinit h, brk_commit_consistent hP l0 b0 hinit hfix hinv h⟩⟩

/-- Witness for C16: the initialization of the blank state establishes the invariant on the
window `[0x1457000, 0x145b000)`, and the grow request `0x145a500` preserves it. -/
theorem commit_consistency_invariant_witness :
    pal4k.wf ∧
    init_brk_region pal4k (initEnv 0x4000) blank 0x1000 0x1800 = (0, blank_init) ∧
    commit_consistent pal4k blank_init (fun _ => Mark.absent) (fun _ => false) ∧
    shim_do_brk pal4k okEnv blank_init 0x145a500 =
      .ok (0x145a500,
        { blank_init with
          brk_region := { blank_init.brk_region with brk_current := 0x145a500 }
          calls := blank_init.calls ++
            [.bkeep_mmap_fixed 0x1457000 0x4000 (PROT_READ ||| PROT_WRITE)
                (MAP_PRIVATE ||| MAP_ANONYMOUS ||| MAP_FIXED) 0,
             .DkVirtualMemoryAlloc 0x1457000 0x4000 0 (PAL_PROT_READ ||| PAL_PROT_WRITE)
                0x1457000] }) ∧
    commit_consistent pal4k
      { blank_init with
        brk_region := { blank_init.brk_region with brk_current := 0x145a500 }
        calls := blank_init.calls ++
          [.bkeep_mmap_fixed 0x1457000 0x4000 (PROT_READ ||| PROT_WRITE)
              (MAP_PRIVATE ||| MAP_ANONYMOUS ||| MAP_FIXED) 0,
           .DkVirtualMemoryAlloc 0x1457000 0x4000 0 (PAL_PROT_READ ||| PAL_PROT_WRITE)
              0x1457000] }
      (fun _ => Mark.absent) (fun _ => false) :=
  ⟨by decide, by decide,
   ((commit_consistency_invariant pal4k (by decide) (fun _ => Mark.absent) (fun _ => false)).1
      (initEnv 0x4000) blank blank_init 0x1000 0x1800 (fun _ he => he) ⟨by decide, by decide⟩
      (fun _ _ _ _ => le_refl _) (fun _ _ _ _ => le_refl _) (by decide)
      (fun _ _ _ => rfl)).2,
   by decide,
   ((commit_consistency_invariant pal4k (by decide) (fun _ => Mark.absent) (fun _ => false)).2
      okEnv blank_init _ 0x145a500 0x145a500 (by decide) (fun _ _ _ _ => le_refl _)
      ((commit_consistency_invariant pal4k (by decide) (fun _ => Mark.absent)
          (fun _ => false)).1
        (initEnv 0x4000) blank blank_init 0x1000 0x1800 (fun _ he => he) ⟨by decide, by decide⟩
        (fun _ _ _ _ => le_refl _) (fun _ _ _ _ => le_refl _) (by decide)
        (fun _ _ _ => rfl)).2
      (by decide)).2⟩

end Graphene
